import Mathlib

/-!
# Fuzzy-Search-Dictionary front-end: suggestion pipeline and auth gateway

A shallow embedding of the logic of `frontend/src/pages/Dictionary.js`,
`frontend/src/context/AuthContext.js` and `frontend/src/pages/Login.js`.

* JavaScript strings are sequences of UTF-16 code units (`JSString`), so that
  `.length` is `List.length`.
* Component state (`useState` cells), `localStorage` and a trace of the calls
  made are fields of one `World`.
* A JavaScript function body is a `JS α`: it takes the world and returns the
  world it leaves together with either a value or the thrown error, so that
  `try / catch / finally` keep the state written before a throw.
* The remote service is an oracle (`Network`) fixing the outcome of each
  request; `String.prototype.toLowerCase`, `JSON.stringify` and the clock are
  parameters of the environment (`Env`).
* A handler reads the state cells through the closure of the render it was
  created in (`c : DictState`) and writes through the setters.
* Time is a clock in milliseconds; a pending `setTimeout` is a record in the
  world, and keystrokes and timer expiry are steps of an event loop.
-/

namespace FuzzyDict

/-! ## Data model -/

/-- A JavaScript string: its UTF-16 code units. -/
abbrev JSString := List Nat

/-- The code units of a Lean string whose characters are all in the basic plane. -/
def str (s : String) : JSString := s.toList.map Char.toNat

/-- The `response` part of a failed request (`error.response`). -/
structure ErrorResponse where
  status : Nat
  detail : Option JSString
deriving DecidableEq, Repr

/-- A thrown value: the error of a failed request. -/
structure JSError where
  message : JSString
  response : Option ErrorResponse
deriving DecidableEq, Repr

/-- The value `error.response?.status`. -/
def JSError.status? (e : JSError) : Option Nat := e.response.map ErrorResponse.status

/-- The body of a `POST /search` response. -/
structure SearchResponse where
  word : JSString
  exact_match : Bool
  meaning : Option JSString
  suggestions : Option (List JSString)
deriving DecidableEq, Repr

/-- The body of a `GET /validate-session` response. -/
structure ValidateResponse where
  is_authenticated : Bool
  username : Option JSString
deriving DecidableEq, Repr

/-- The object stored in the `user` cell; `username` is absent when the validation response
carries none. -/
structure User where
  username : Option JSString
deriving DecidableEq, Repr

/-- One entry of the recent-search history. -/
structure RecentSearch where
  word : JSString
  timestamp : JSString
  isExactMatch : Bool
  meaning : Option JSString
deriving DecidableEq, Repr

/-- The state cells of `AuthProvider`. -/
structure AuthState where
  isAuthenticated : Bool
  user : Option User
  loading : Bool
deriving DecidableEq, Repr

/-- The state cells of the `Dictionary` component. -/
structure DictState where
  searchTerm : JSString
  result : Option SearchResponse
  isLoading : Bool
  error : JSString
  recentSearches : List RecentSearch
  suggestions : List JSString
  typingTimeout : Nat
  cachedWords : List JSString
  isLoadingCache : Bool
deriving DecidableEq, Repr

/-- A call observed from outside the component. -/
inductive Event where
  | searchWord (word : JSString)
  | postSearch (word : JSString)
  | getValidateSession
  | postToken (username password : JSString)
  | postLogout
  | getDictionaryWords
  | setItem (key value : JSString)
  | consoleError
  | consoleLog
  | preventDefault
  | setLoading (value : Bool)
  | login (username password : JSString)
  | navigate (path : JSString)
  | fetchSuggestions (term : JSString)
deriving DecidableEq, Repr

/-- The state cells of the `Login` page. -/
structure LoginState where
  username : JSString
  password : JSString
  error : JSString
  isLoading : Bool
deriving DecidableEq, Repr

/-- A pending `setTimeout` of the debounce: its handle, the time it is due, and the callback,
which calls `fetchSuggestions(term)` of the render `closure`. -/
structure Timer where
  id : Nat
  due : Nat
  term : JSString
  closure : DictState
deriving DecidableEq, Repr

/-- The timers of the window: the clock in milliseconds, the pending timeouts in the order
they were armed, and the last handle given out. -/
structure TimerState where
  clock : Nat
  pending : List Timer
  lastId : Nat
deriving DecidableEq, Repr

/-- Everything a function body can read or write. -/
structure World where
  auth : AuthState
  dict : DictState
  localStorage : List (JSString × JSString)
  trace : List Event
  loginPage : LoginState
  timers : TimerState
deriving DecidableEq, Repr

/-- The outcome the remote service gives to each request. -/
structure Network where
  postSearch : JSString → Except JSError SearchResponse
  getValidateSession : Except JSError ValidateResponse
  postToken : JSString → JSString → Except JSError Unit
  postLogout : Except JSError Unit
  getDictionaryWords : Except JSError (Option (List JSString))

/-- The platform around the component. -/
structure Env where
  net : Network
  toLowerCase : JSString → JSString
  stringify : List RecentSearch → JSString
  now : JSString
  parse : JSString → Option (List RecentSearch)

/-! ## Function bodies with state and exceptions -/

/-- A function body: from the world to the outcome and the world it leaves. -/
def JS (α : Type) : Type := World → Except JSError α × World

namespace JS

/-- Return a value, leaving the world as it is. -/
def ret {α : Type} (a : α) : JS α := fun w => (Except.ok a, w)

/-- Sequencing: a throw in the first part skips the second. -/
def andThen {α β : Type} (m : JS α) (f : α → JS β) : JS β := fun w =>
  match m w with
  | (Except.ok a, w1) => f a w1
  | (Except.error e, w1) => (Except.error e, w1)

/-- The statement `throw e`. -/
def throwErr {α : Type} (e : JSError) : JS α := fun w => (Except.error e, w)

/-- The statement `try m catch (e) h`. -/
def catchErr {α : Type} (m : JS α) (h : JSError → JS α) : JS α := fun w =>
  match m w with
  | (Except.ok a, w1) => (Except.ok a, w1)
  | (Except.error e, w1) => h e w1

/-- The statement `try m finally f`, with the outcome of `m` unless `f` throws. -/
def andFinally {α β : Type} (m : JS α) (f : Option α → JS β) : JS (α × β) := fun w =>
  match m w with
  | (Except.ok a, w1) =>
    match f (some a) w1 with
    | (Except.ok b, w2) => (Except.ok (a, b), w2)
    | (Except.error e, w2) => (Except.error e, w2)
  | (Except.error e, w1) =>
    match f none w1 with
    | (Except.ok _, w2) => (Except.error e, w2)
    | (Except.error e2, w2) => (Except.error e2, w2)

end JS

instance : Monad JS where
  pure := JS.ret
  bind := JS.andThen

instance : MonadExcept JSError JS where
  throw := JS.throwErr
  tryCatch := JS.catchErr

instance : MonadFinally JS where
  tryFinally' := JS.andFinally

/-- Apply a change to the world. -/
def modifyWorld (f : World → World) : JS Unit := fun w => (Except.ok (), f w)

/-- Record an observed call. -/
def emit (ev : Event) : JS Unit :=
  modifyWorld fun w => { w with trace := w.trace ++ [ev] }

/-- The call `console.error(...)`. -/
def consoleError : JS Unit := emit Event.consoleError

/-- The call `console.log(...)`. -/
def consoleLog : JS Unit := emit Event.consoleLog

/-- An awaited request: the outcome given by the service. -/
def await {α : Type} (r : Except JSError α) : JS α := fun w => (r, w)

/-! ### Setters of the state cells -/

def setIsAuthenticated (b : Bool) : JS Unit :=
  modifyWorld fun w => { w with auth := { w.auth with isAuthenticated := b } }

def setUser (u : Option User) : JS Unit :=
  modifyWorld fun w => { w with auth := { w.auth with user := u } }

/-- The setter of the `loading` cell; the call is recorded so that calls can be counted. -/
def setLoading (b : Bool) : JS Unit := do
  emit (Event.setLoading b)
  modifyWorld fun w => { w with auth := { w.auth with loading := b } }

def setSearchTerm (t : JSString) : JS Unit :=
  modifyWorld fun w => { w with dict := { w.dict with searchTerm := t } }

def setResult (r : Option SearchResponse) : JS Unit :=
  modifyWorld fun w => { w with dict := { w.dict with result := r } }

def setIsLoading (b : Bool) : JS Unit :=
  modifyWorld fun w => { w with dict := { w.dict with isLoading := b } }

def setError (t : JSString) : JS Unit :=
  modifyWorld fun w => { w with dict := { w.dict with error := t } }

def setRecentSearches (l : List RecentSearch) : JS Unit :=
  modifyWorld fun w => { w with dict := { w.dict with recentSearches := l } }

def setSuggestions (l : List JSString) : JS Unit :=
  modifyWorld fun w => { w with dict := { w.dict with suggestions := l } }

/-! ### `localStorage` -/

/-- The value stored under a key, if any. -/
def getItem (store : List (JSString × JSString)) (key : JSString) : Option JSString :=
  (store.find? fun kv => kv.1 == key).map Prod.snd

/-- The call `localStorage.setItem(key, value)`. -/
def localStorageSetItem (key value : JSString) : JS Unit := do
  emit (Event.setItem key value)
  modifyWorld fun w =>
    { w with localStorage := (key, value) :: w.localStorage.filter fun kv => kv.1 != key }

/-! ## AuthContext.js -/

/-- The request `axios.post(API_URL + "/search", { word }, ...)`. -/
def axiosPostSearch (env : Env) (word : JSString) : JS SearchResponse := do
  emit (Event.postSearch word)
  await (env.net.postSearch word)

/-- The request `axios.get(API_URL + "/validate-session", ...)`. -/
def axiosGetValidateSession (env : Env) : JS ValidateResponse := do
  emit Event.getValidateSession
  await env.net.getValidateSession

/-- The function `searchWord` of `AuthProvider`. -/
def searchWord (env : Env) (word : JSString) : JS SearchResponse := do
  emit (Event.searchWord word)
  try
    let response ← axiosPostSearch env word
    return response
  catch error =>
    consoleError
    -- Only log out if specifically unauthorized
    if error.status? = some 401 then
      consoleLog
      try
        let sessionCheck ← axiosGetValidateSession env
        if !sessionCheck.is_authenticated then
          setIsAuthenticated false
          setUser none
      catch _ =>
        consoleError
        setIsAuthenticated false
        setUser none
    throw error

/-- The request `axios.post(API_URL + "/token", formData, ...)`. -/
def axiosPostToken (env : Env) (username password : JSString) : JS Unit := do
  emit (Event.postToken username password)
  await (env.net.postToken username password)

/-- The request `axios.post(API_URL + "/logout", {}, ...)`. -/
def axiosPostLogout (env : Env) : JS Unit := do
  emit Event.postLogout
  await env.net.postLogout

/-- The function `checkAuth` of the mount effect of `AuthProvider`. -/
def checkAuth (env : Env) : JS Unit := do
  try
    let response ← axiosGetValidateSession env
    if response.is_authenticated then
      setIsAuthenticated true
      setUser (some { username := response.username })
  catch _ =>
    consoleError
    setIsAuthenticated false
    setUser none
  finally
    setLoading false

/-- The value `login` returns: `{ success: true }` or `{ success: false, message }`. -/
inductive LoginResult where
  | success
  | failure (message : JSString)
deriving DecidableEq, Repr

/-- The fallback text of a failed login. -/
def loginFailedMessage : JSString := str "Login failed. Please try again."

/-- The expression `error.response?.data?.detail || "Login failed. Please try again."`. -/
def loginMessage (error : JSError) : JSString :=
  match error.response.bind ErrorResponse.detail with
  | some detail => if detail.isEmpty then loginFailedMessage else detail
  | none => loginFailedMessage

/-- The function `login` of `AuthProvider`. -/
def login (env : Env) (username password : JSString) : JS LoginResult := do
  emit (Event.login username password)
  try
    axiosPostToken env username password
    setIsAuthenticated true
    setUser (some { username := some username })
    return LoginResult.success
  catch error =>
    consoleError
    return LoginResult.failure (loginMessage error)

/-- The function `logout` of `AuthProvider`. -/
def logout (env : Env) : JS Bool := do
  try
    axiosPostLogout env
    setIsAuthenticated false
    setUser none
    return true
  catch _ =>
    consoleError
    return false

/-! ## Login.js -/

namespace Login

def setError (t : JSString) : JS Unit :=
  modifyWorld fun w => { w with loginPage := { w.loginPage with error := t } }

def setIsLoading (b : Bool) : JS Unit :=
  modifyWorld fun w => { w with loginPage := { w.loginPage with isLoading := b } }

/-- The call `navigate(path)`. -/
def navigate (path : JSString) : JS Unit := emit (Event.navigate path)

/-- The text shown when a credential is missing. -/
def missingCredentialsMessage : JSString := str "Please enter both username and password"

/-- The function `handleSubmit` of the `Login` page; `c` holds the `username` and `password`
cells as the closure sees them. -/
def handleSubmit (env : Env) (c : LoginState) : JS Unit := do
  emit Event.preventDefault
  setIsLoading true
  setError []
  if c.username.isEmpty || c.password.isEmpty then
    setError missingCredentialsMessage
    setIsLoading false
    return
  try
    let result ← login env c.username c.password
    match result with
    | LoginResult.success => navigate (str "/dictionary")
    | LoginResult.failure message => setError message
  catch _ =>
    setError loginFailedMessage
    consoleError
  finally
    setIsLoading false

end Login

/-! ## Dictionary.js -/

/-- The storage key of the history. -/
def recentSearchesKey : JSString := str "recentSearches"

/-- The local constant `search` of `saveSearch`: the entry being recorded. -/
def searchEntry (env : Env) (word : JSString) (isExactMatch : Bool)
    (meaning : Option JSString) : RecentSearch :=
  { word := word
    timestamp := env.now
    isExactMatch := isExactMatch
    meaning := if isExactMatch then meaning else none }

/-- The local constant `updatedSearches` of `saveSearch`. -/
def updatedSearches (env : Env) (recentSearches : List RecentSearch) (word : JSString)
    (isExactMatch : Bool) (meaning : Option JSString) : List RecentSearch :=
  (searchEntry env word isExactMatch meaning ::
    recentSearches.filter fun s => s.word != word).take 5

/-- The function `saveSearch`; `c.recentSearches` is the cell as the closure sees it. -/
def saveSearch (env : Env) (c : DictState) (word : JSString) (isExactMatch : Bool)
    (meaning : Option JSString) : JS Unit := do
  let updatedSearches := updatedSearches env c.recentSearches word isExactMatch meaning
  setRecentSearches updatedSearches
  localStorageSetItem recentSearchesKey (env.stringify updatedSearches)

/-- The function `filterWordsByPrefix`. -/
def filterWordsByPrefix (env : Env) (cachedWords : List JSString) (pfx : JSString) :
    List JSString :=
  if pfx.isEmpty || pfx.length < 2 || cachedWords.length == 0 then []
  else
    let lowerPrefix := env.toLowerCase pfx
    (cachedWords.filter fun word => lowerPrefix.isPrefixOf (env.toLowerCase word)).take 5

/-- The function `fetchSuggestions`. -/
def fetchSuggestions (env : Env) (c : DictState) (term : JSString) : JS Unit := do
  if term.isEmpty || term.length < 2 then
    setSuggestions []
    return
  -- First, try client-side filtering
  let clientSideSuggestions := filterWordsByPrefix env c.cachedWords term
  if clientSideSuggestions.length > 0 then
    setSuggestions clientSideSuggestions
  else
    -- Otherwise, fall back to backend API for fuzzy search
    try
      let data ← searchWord env term
      -- If exact match, no need for suggestions
      if data.exact_match then
        setSuggestions []
        return
      -- Set suggestions from the API response
      match data.suggestions with
      | some l =>
        if l.length > 0 then setSuggestions l else setSuggestions []
      | none => setSuggestions []
    catch _ =>
      consoleError
      setSuggestions []

/-- The code units removed by `String.prototype.trim` (white space and line terminators). -/
def isTrimmable (u : Nat) : Bool :=
  u == 9 || u == 10 || u == 11 || u == 12 || u == 13 || u == 32 || u == 160 ||
  u == 0x1680 || (0x2000 ≤ u && u ≤ 0x200A) || u == 0x2028 || u == 0x2029 ||
  u == 0x202F || u == 0x205F || u == 0x3000 || u == 0xFEFF

/-- The method `String.prototype.trim`. -/
def trim (s : JSString) : JSString :=
  ((s.dropWhile isTrimmable).reverse.dropWhile isTrimmable).reverse

/-- The text shown when a submitted search fails. -/
def searchErrorMessage : JSString := str "Error searching for word. Please try again."

/-- The expression `overrideSearchTerm || searchTerm.trim()`. -/
def termToSearch (c : DictState) (overrideSearchTerm : Option JSString) : JSString :=
  match overrideSearchTerm with
  | some t => if t.isEmpty then trim c.searchTerm else t
  | none => trim c.searchTerm

/-- The function `handleSearch`; `e` tells whether a form event was passed. -/
def handleSearch (env : Env) (c : DictState) (e : Bool)
    (overrideSearchTerm : Option JSString) : JS Unit := do
  if e then emit Event.preventDefault
  let termToSearch := termToSearch c overrideSearchTerm
  if termToSearch.isEmpty then return
  setIsLoading true
  setError []
  setSuggestions [] -- Clear suggestions when performing a full search
  try
    let data ← searchWord env termToSearch
    setResult (some data)
    -- Save to recent searches if it is an exact match
    if data.exact_match then
      saveSearch env c data.word true data.meaning
  catch _ =>
    setError searchErrorMessage
    consoleError
  finally
    setIsLoading false

/-- The function `handleSuggestionSelect`. -/
def handleSuggestionSelect (env : Env) (c : DictState) (suggestion : JSString) : JS Unit := do
  setSearchTerm suggestion
  setSuggestions [] -- Clear suggestions
  handleSearch env c false (some suggestion)

/-- The function `handleSuggestionClick`. -/
def handleSuggestionClick (env : Env) (c : DictState) (word : JSString) : JS Unit := do
  setSearchTerm word
  handleSearch env c false (some word)

/-- The call `localStorage.getItem(key)`. -/
def localStorageGetItem (key : JSString) : JS (Option JSString) := fun w =>
  (Except.ok (getItem w.localStorage key), w)

/-- The call `JSON.parse(text)`: a text that does not parse throws. -/
def jsonParse (env : Env) (text : JSString) : JS (List RecentSearch) :=
  match env.parse text with
  | some value => pure value
  | none => throw { message := str "SyntaxError", response := none }

/-- The mount effect that loads the recent searches from `localStorage`. -/
def loadRecentSearches (env : Env) : JS Unit := do
  let savedSearches ← localStorageGetItem recentSearchesKey
  match savedSearches with
  | some text =>
    if !text.isEmpty then
      try
        let parsed ← jsonParse env text
        setRecentSearches parsed
      catch _ =>
        consoleError
  | none => pure ()

/-! ### The debounce timer -/

def setTypingTimeout (id : Nat) : JS Unit :=
  modifyWorld fun w => { w with dict := { w.dict with typingTimeout := id } }

/-- The call `clearTimeout(id)`. -/
def clearTimeout (id : Nat) : JS Unit :=
  modifyWorld fun w =>
    { w with timers := { w.timers with
        pending := w.timers.pending.filter fun tm => tm.id != id } }

/-- The call `setTimeout(() => { fetchSuggestions(term); }, delay)` made in the render with
closure `c`: the handle returned is a fresh positive integer. -/
def setTimeout (c : DictState) (term : JSString) (delay : Nat) : JS Nat := fun w =>
  (Except.ok (w.timers.lastId + 1),
    { w with timers := { w.timers with
        pending := w.timers.pending ++
          [{ id := w.timers.lastId + 1, due := w.timers.clock + delay, term := term,
             closure := c }]
        lastId := w.timers.lastId + 1 } })

/-- The function `debouncedFetchSuggestions`. -/
def debouncedFetchSuggestions (c : DictState) (term : JSString) : JS Unit := do
  if c.typingTimeout != 0 then
    clearTimeout c.typingTimeout
  let timeoutId ← setTimeout c term 200
  setTypingTimeout timeoutId

/-- The function `handleInputChange`; `value` is `e.target.value`. -/
def handleInputChange (c : DictState) (value : JSString) : JS Unit := do
  setSearchTerm value
  -- Use our debounced function
  debouncedFetchSuggestions c value

/-- The callback of the timeout, `() => { fetchSuggestions(term); }`; the invocation is
recorded so that invocations can be counted. -/
def timeoutCallback (env : Env) (tm : Timer) : JS Unit := do
  emit (Event.fetchSuggestions tm.term)
  fetchSuggestions env tm.closure tm.term

/-! ### The event loop: keystrokes and timer expiry as steps -/

/-- The expiry of one timer: it leaves the pending list and its callback runs. -/
def fireTimer (env : Env) (tm : Timer) (w : World) : World :=
  (timeoutCallback env tm
    { w with timers := { w.timers with
        pending := w.timers.pending.filter fun x => x.id != tm.id } }).2

/-- Time passes until `t`: the pending timers due by then expire, in the order they were
armed, and the clock shows `t`. -/
def advanceTo (env : Env) (t : Nat) (w : World) : World :=
  let fired := (w.timers.pending.filter fun tm => tm.due ≤ t).foldl
    (fun acc tm => fireTimer env tm acc) w
  { fired with timers := { fired.timers with clock := t } }

/-- A keystroke at time `t` leaving `value` in the input: the timers due by `t` expire first,
then `handleInputChange` runs in the current render. -/
def keystroke (env : Env) (t : Nat) (value : JSString) (w : World) : World :=
  (handleInputChange (advanceTo env t w).dict value (advanceTo env t w)).2

/-- A sequence of keystrokes, each with its time and the value it leaves in the input. -/
def typeKeys (env : Env) : List (Nat × JSString) → World → World
  | [], w => w
  | key :: rest, w => typeKeys env rest (keystroke env key.1 key.2 w)

/-- Each keystroke of the list follows the previous one, the first of them the keystroke at
time `t`, by less than 200 ms. -/
def rapid : Nat → List (Nat × JSString) → Prop
  | _, [] => True
  | t, key :: rest => t ≤ key.1 ∧ key.1 < t + 200 ∧ rapid key.1 rest

/-- The last keystroke of a non-empty sequence. -/
def lastKey : Nat × JSString → List (Nat × JSString) → Nat × JSString
  | first, [] => first
  | _, key :: rest => lastKey key rest

/-! ## Observations on a run -/

/-- The terms `fetchSuggestions` was invoked with by timer callbacks in a trace, in order. -/
def fetchCalls (t : List Event) : List JSString :=
  t.filterMap fun ev => match ev with
    | Event.fetchSuggestions term => some term
    | _ => none

/-- The timers that are pending all carry the handle held in `typingTimeout`. -/
def debounceInv (w : World) : Prop :=
  ∀ tm ∈ w.timers.pending, tm.id = w.dict.typingTimeout ∧ w.dict.typingTimeout ≠ 0

/-- Exactly one timer is pending: the one armed by a keystroke at time `t` for `term`, whose
callback holds the render in which that keystroke was handled. -/
def armed (t : Nat) (term : JSString) (w : World) : Prop :=
  debounceInv w ∧ ∃ tm, w.timers.pending = [tm] ∧ tm.due = t + 200 ∧ tm.term = term ∧
    w.dict = { tm.closure with searchTerm := term, typingTimeout := tm.id }

/-- The arguments of the calls of `searchWord` in a trace, in order. -/
def searchWordCalls (t : List Event) : List JSString :=
  t.filterMap fun ev => match ev with
    | Event.searchWord w => some w
    | _ => none

/-- The arguments of the calls of `login` in a trace, in order. -/
def loginCalls (t : List Event) : List (JSString × JSString) :=
  t.filterMap fun ev => match ev with
    | Event.login u p => some (u, p)
    | _ => none

/-- The `POST /token` requests in a trace, in order. -/
def tokenRequests (t : List Event) : List (JSString × JSString) :=
  t.filterMap fun ev => match ev with
    | Event.postToken u p => some (u, p)
    | _ => none

/-- The arguments of the calls of `setLoading` in a trace, in order. -/
def setLoadingCalls (t : List Event) : List Bool :=
  t.filterMap fun ev => match ev with
    | Event.setLoading b => some b
    | _ => none

/-- The number of `GET /validate-session` requests in a trace. -/
def validateSessionCalls (t : List Event) : Nat :=
  t.count Event.getValidateSession

/-- ASCII lower-casing, the restriction of `toLowerCase` to code units below 128. -/
def asciiLower (s : JSString) : JSString :=
  s.map fun u => if 65 ≤ u ∧ u ≤ 90 then u + 32 else u

/-- The session part of the world: the authentication flag and the user. -/
def session (w : World) : Bool × Option User := (w.auth.isAuthenticated, w.auth.user)

/-- The list of the words stored in a history. -/
def historyWords (l : List RecentSearch) : List JSString := l.map RecentSearch.word

/-! ## The suggestion list as the specification words it -/

/-- The term is a case-insensitive prefix of the word: both are lower-cased. -/
def prefixMatch (env : Env) (term word : JSString) : Bool :=
  (env.toLowerCase term).isPrefixOf (env.toLowerCase word)

/-- Walk the cache in order and keep the matching words until `n` are found. -/
def firstMatches (env : Env) (term : JSString) : Nat → List JSString → List JSString
  | 0, _ => []
  | _ + 1, [] => []
  | n + 1, word :: rest =>
    if prefixMatch env term word then word :: firstMatches env term n rest
    else firstMatches env term (n + 1) rest

/-! ## Sample worlds -/

/-- A stand-in for `JSON.stringify`: the words of the history between brackets. -/
def sampleStringify (l : List RecentSearch) : JSString :=
  [91] ++ List.intercalate [44] (historyWords l) ++ [93]

/-- A service that answers every search and every validation the same way. -/
def sampleNet (search : Except JSError SearchResponse)
    (validate : Except JSError ValidateResponse) : Network :=
  { postSearch := fun _ => search
    getValidateSession := validate
    postToken := fun _ _ => Except.ok ()
    postLogout := Except.ok ()
    getDictionaryWords := Except.ok none }

/-- A history entry for a word, as an earlier exact-match search left it. -/
def sampleEntry (word : JSString) : RecentSearch :=
  { word := word, timestamp := str "2024-04-30T09:00:00.000Z", isExactMatch := true,
    meaning := some (str "meaning") }

/-- Split a text at the commas. -/
def splitCommas : JSString → List JSString
  | [] => [[]]
  | u :: rest =>
    if u = 44 then [] :: splitCommas rest
    else
      match splitCommas rest with
      | [] => [[u]]
      | first :: others => (u :: first) :: others

/-- A stand-in for `JSON.parse`, reading back what `sampleStringify` writes: a text between
brackets parses to one entry per word, any other text fails to parse. -/
def sampleParse (s : JSString) : Option (List RecentSearch) :=
  match s with
  | 91 :: rest =>
    match rest.reverse with
    | 93 :: body =>
      if body = [] then some [] else some ((splitCommas body.reverse).map sampleEntry)
    | _ => none
  | _ => none

/-- An environment over `sampleNet` with ASCII lower-casing. -/
def sampleEnv (search : Except JSError SearchResponse)
    (validate : Except JSError ValidateResponse) : Env :=
  { net := sampleNet search validate
    toLowerCase := asciiLower
    stringify := sampleStringify
    now := str "2024-05-01T10:00:00.000Z"
    parse := sampleParse }

/-- An environment whose service answers the token, logout and validation requests as given,
and fails every search. -/
def gatewayEnv (token logoutOutcome : Except JSError Unit)
    (validate : Except JSError ValidateResponse) : Env :=
  { net :=
      { postSearch := fun _ =>
          Except.error { message := str "Request failed", response := none }
        getValidateSession := validate
        postToken := fun _ _ => token
        postLogout := logoutOutcome
        getDictionaryWords := Except.ok none }
    toLowerCase := asciiLower
    stringify := sampleStringify
    now := str "2024-05-01T10:00:00.000Z"
    parse := sampleParse }

/-- A logged-in world with the given input, cache and history, and nothing else. -/
def sampleWorld (searchTerm : JSString) (cachedWords : List JSString)
    (recentSearches : List RecentSearch) : World :=
  { auth :=
      { isAuthenticated := true, user := some { username := some (str "ann") },
        loading := false }
    dict :=
      { searchTerm := searchTerm
        result := none
        isLoading := false
        error := []
        recentSearches := recentSearches
        suggestions := []
        typingTimeout := 0
        cachedWords := cachedWords
        isLoadingCache := false }
    localStorage := []
    trace := []
    loginPage := { username := [], password := [], error := [], isLoading := false }
    timers := { clock := 0, pending := [], lastId := 0 } }

/-- A logged-out world showing the `Login` page with the given fields typed in. -/
def sampleLoginWorld (username password : JSString) : World :=
  { sampleWorld [] [] [] with
    auth := { isAuthenticated := false, user := none, loading := false }
    loginPage := { username := username, password := password, error := [], isLoading := false } }

/-- A world at startup, with an empty history and the given text stored under the
`recentSearches` key. -/
def sampleStoredWorld (stored : JSString) : World :=
  { sampleWorld [] [] [] with localStorage := [(recentSearchesKey, stored)] }

/-- The answer to a search that is not an exact match, with the given suggestions. -/
def inexactAnswer (word : JSString) (suggestions : List JSString) : SearchResponse :=
  { word := word, exact_match := false, meaning := none, suggestions := some suggestions }

/-- The answer to a search that is an exact match. -/
def exactAnswer (word meaning : JSString) : SearchResponse :=
  { word := word, exact_match := true, meaning := some meaning, suggestions := none }

/-- A failed request with the given HTTP status. -/
def httpError (status : Nat) : JSError :=
  { message := str "Request failed", response := some { status := status, detail := none } }

/-- A failed request whose response carries the given `detail`. -/
def detailError (status : Nat) (detail : JSString) : JSError :=
  { message := str "Request failed", response := some { status := status, detail := some detail } }

/-- A validation answer. -/
def validation (ok : Bool) : ValidateResponse :=
  { is_authenticated := ok, username := if ok then some (str "ann") else none }

/-! # Theorems -/

/-! ## Running `searchWord` -/

theorem searchWord_ok (env : Env) (word : JSString) (w : World) (r : SearchResponse)
    (h : env.net.postSearch word = Except.ok r) :
    searchWord env word w =
      (Except.ok r,
        { w with trace := w.trace ++ [Event.searchWord word, Event.postSearch word] }) := by
  simp [searchWord, axiosPostSearch, bind, JS.andThen, emit, modifyWorld, await, tryCatch,
    tryCatchThe, MonadExcept.tryCatch, JS.catchErr, h, pure, JS.ret]

theorem searchWord_other (env : Env) (word : JSString) (w : World) (e : JSError)
    (h : env.net.postSearch word = Except.error e) (hs : e.status? ≠ some 401) :
    searchWord env word w =
      (Except.error e,
        { w with trace := w.trace ++
            [Event.searchWord word, Event.postSearch word, Event.consoleError] }) := by
  simp [searchWord, axiosPostSearch, bind, JS.andThen, emit, modifyWorld, await, tryCatch,
    tryCatchThe, MonadExcept.tryCatch, JS.catchErr, h, pure, JS.ret, hs, consoleError, throw,
    throwThe, MonadExcept.throw, JS.throwErr]

theorem searchWord_401_valid (env : Env) (word : JSString) (w : World) (e : JSError)
    (v : ValidateResponse)
    (h : env.net.postSearch word = Except.error e) (hs : e.status? = some 401)
    (hv : env.net.getValidateSession = Except.ok v) (hb : v.is_authenticated = true) :
    searchWord env word w =
      (Except.error e,
        { w with trace := w.trace ++
            [Event.searchWord word, Event.postSearch word, Event.consoleError,
             Event.consoleLog, Event.getValidateSession] }) := by
  simp [searchWord, axiosPostSearch, axiosGetValidateSession, bind, JS.andThen, emit,
    modifyWorld, await, tryCatch, tryCatchThe, MonadExcept.tryCatch, JS.catchErr, h, pure,
    JS.ret, hs, hv, hb, consoleError, consoleLog, throw, throwThe, MonadExcept.throw,
    JS.throwErr, setIsAuthenticated, setUser]

theorem searchWord_401_invalid (env : Env) (word : JSString) (w : World) (e : JSError)
    (v : ValidateResponse)
    (h : env.net.postSearch word = Except.error e) (hs : e.status? = some 401)
    (hv : env.net.getValidateSession = Except.ok v) (hb : v.is_authenticated = false) :
    searchWord env word w =
      (Except.error e,
        { w with
          auth := { w.auth with isAuthenticated := false, user := none }
          trace := w.trace ++
            [Event.searchWord word, Event.postSearch word, Event.consoleError,
             Event.consoleLog, Event.getValidateSession] }) := by
  simp [searchWord, axiosPostSearch, axiosGetValidateSession, bind, JS.andThen, emit,
    modifyWorld, await, tryCatch, tryCatchThe, MonadExcept.tryCatch, JS.catchErr, h, pure,
    JS.ret, hs, hv, hb, consoleError, consoleLog, throw, throwThe, MonadExcept.throw,
    JS.throwErr, setIsAuthenticated, setUser]

theorem searchWord_401_failed (env : Env) (word : JSString) (w : World) (e e2 : JSError)
    (h : env.net.postSearch word = Except.error e) (hs : e.status? = some 401)
    (hv : env.net.getValidateSession = Except.error e2) :
    searchWord env word w =
      (Except.error e,
        { w with
          auth := { w.auth with isAuthenticated := false, user := none }
          trace := w.trace ++
            [Event.searchWord word, Event.postSearch word, Event.consoleError,
             Event.consoleLog, Event.getValidateSession, Event.consoleError] }) := by
  simp [searchWord, axiosPostSearch, axiosGetValidateSession, bind, JS.andThen, emit,
    modifyWorld, await, tryCatch, tryCatchThe, MonadExcept.tryCatch, JS.catchErr, h, pure,
    JS.ret, hs, hv, consoleError, consoleLog, throw, throwThe, MonadExcept.throw,
    JS.throwErr, setIsAuthenticated, setUser]

/-- The outcome of `searchWord` is the outcome of the search request, in every world. -/
theorem searchWord_fst (env : Env) (word : JSString) (w : World) :
    (searchWord env word w).1 = env.net.postSearch word := by
  rcases h : env.net.postSearch word with e | r
  · by_cases hs : e.status? = some 401
    · rcases hv : env.net.getValidateSession with e2 | v
      · rw [searchWord_401_failed env word w e e2 h hs hv]
      · cases hb : v.is_authenticated
        · rw [searchWord_401_invalid env word w e v h hs hv hb]
        · rw [searchWord_401_valid env word w e v h hs hv hb]
    · rw [searchWord_other env word w e h hs]
  · rw [searchWord_ok env word w r h]

/-- Frame of `searchWord`: it touches neither the component state nor the storage, and the
trace gains exactly one call of `searchWord`, with the word. -/
theorem searchWord_frame (env : Env) (word : JSString) (w : World) :
    (searchWord env word w).2.dict = w.dict ∧
    (searchWord env word w).2.localStorage = w.localStorage ∧
    searchWordCalls (searchWord env word w).2.trace = searchWordCalls w.trace ++ [word] := by
  rcases h : env.net.postSearch word with e | r
  · by_cases hs : e.status? = some 401
    · rcases hv : env.net.getValidateSession with e2 | v
      · rw [searchWord_401_failed env word w e e2 h hs hv]
        simp [searchWordCalls, List.filterMap_append]
      · cases hb : v.is_authenticated
        · rw [searchWord_401_invalid env word w e v h hs hv hb]
          simp [searchWordCalls, List.filterMap_append]
        · rw [searchWord_401_valid env word w e v h hs hv hb]
          simp [searchWordCalls, List.filterMap_append]
    · rw [searchWord_other env word w e h hs]
      simp [searchWordCalls, List.filterMap_append]
  · rw [searchWord_ok env word w r h]
    simp [searchWordCalls, List.filterMap_append]


/-! ## Running `handleSearch` -/

/-- The guard of `handleSearch`: with an empty effective term nothing happens after
`preventDefault`. -/
theorem handleSearch_empty (env : Env) (c : DictState) (e : Bool) (o : Option JSString)
    (w : World) (h : termToSearch c o = []) :
    handleSearch env c e o w =
      (Except.ok (),
        if e then { w with trace := w.trace ++ [Event.preventDefault] } else w) := by
  cases e <;>
    simp [handleSearch, h, bind, JS.andThen, pure, JS.ret, emit, modifyWorld]

/-- Past its guard, `handleSearch` is determined by the run of `searchWord`. -/
theorem handleSearch_run (env : Env) (c : DictState) (e : Bool) (o : Option JSString)
    (w : World) (h : termToSearch c o ≠ []) :
    handleSearch env c e o w =
      match searchWord env (termToSearch c o)
          { w with
            dict := { w.dict with isLoading := true, error := [], suggestions := [] }
            trace := if e then w.trace ++ [Event.preventDefault] else w.trace } with
      | (Except.ok data, w2) =>
        if data.exact_match then
          (Except.ok (),
            { w2 with
              dict := { w2.dict with
                result := some data
                isLoading := false
                recentSearches := updatedSearches env c.recentSearches data.word true data.meaning }
              localStorage :=
                (recentSearchesKey,
                  env.stringify (updatedSearches env c.recentSearches data.word true data.meaning))
                  :: w2.localStorage.filter fun kv => kv.1 != recentSearchesKey
              trace := w2.trace ++ [Event.setItem recentSearchesKey
                (env.stringify (updatedSearches env c.recentSearches data.word true data.meaning))] })
        else
          (Except.ok (),
            { w2 with dict := { w2.dict with result := some data, isLoading := false } })
      | (Except.error _, w2) =>
        (Except.ok (),
          { w2 with
            dict := { w2.dict with error := searchErrorMessage, isLoading := false }
            trace := w2.trace ++ [Event.consoleError] }) := by
  have hne : (termToSearch c o).isEmpty = false := by
    cases ht : termToSearch c o
    · exact absurd ht h
    · rfl
  simp only [handleSearch, hne]
  generalize termToSearch c o = t
  cases e <;>
  · simp only [bind, JS.andThen, pure, JS.ret, tryCatch, tryCatchThe, MonadExcept.tryCatch,
      JS.catchErr, tryFinally, MonadFinally.tryFinally', JS.andFinally, setIsLoading, setError,
      setSuggestions, setResult, modifyWorld, Functor.map, emit, consoleError, saveSearch,
      setRecentSearches, localStorageSetItem, Function.comp, if_true, if_false, Bool.false_eq_true]
    generalize searchWord env t _ = res
    rcases res with ⟨err | data, w2⟩
    · rfl
    · rcases data with ⟨dw, _ | _, dm, ds⟩ <;> rfl

/-! ## Running `fetchSuggestions` -/

theorem length_lt_two_guard (term : JSString) (h : term.length < 2) :
    (term.isEmpty || decide (term.length < 2)) = true := by
  simp [h]

theorem two_le_length_guard (term : JSString) (h : 2 ≤ term.length) :
    (term.isEmpty || decide (term.length < 2)) = false := by
  cases term with
  | nil => simp at h
  | cons a l => simp; simpa using h

/-- With a term of two code units or more the filter is the plain `filter` and `slice`. -/
theorem filterWordsByPrefix_eq (env : Env) (cachedWords : List JSString) (pfx : JSString)
    (h : 2 ≤ pfx.length) :
    filterWordsByPrefix env cachedWords pfx =
      (cachedWords.filter fun word => prefixMatch env pfx word).take 5 := by
  unfold filterWordsByPrefix
  rw [show (pfx.isEmpty || decide (pfx.length < 2)) = false from two_le_length_guard pfx h]
  cases cachedWords with
  | nil => simp
  | cons a l => simp [prefixMatch]

/-- The walk of the specification is `filter` followed by `take`. -/
theorem firstMatches_eq (env : Env) (term : JSString) (n : Nat) (cache : List JSString) :
    firstMatches env term n cache = (cache.filter fun word => prefixMatch env term word).take n := by
  induction cache generalizing n with
  | nil => cases n <;> simp [firstMatches]
  | cons a l ih =>
    cases n with
    | zero => simp [firstMatches]
    | succ k =>
      by_cases hm : prefixMatch env term a = true
      · simp [firstMatches, hm, ih]
      · simp [firstMatches, hm, ih]

theorem fetchSuggestions_short (env : Env) (c : DictState) (term : JSString) (w : World)
    (h : term.length < 2) :
    fetchSuggestions env c term w =
      (Except.ok (), { w with dict := { w.dict with suggestions := [] } }) := by
  simp only [fetchSuggestions, length_lt_two_guard term h]
  rfl

theorem fetchSuggestions_hit (env : Env) (c : DictState) (term : JSString) (w : World)
    (h : 2 ≤ term.length) (hit : filterWordsByPrefix env c.cachedWords term ≠ []) :
    fetchSuggestions env c term w =
      (Except.ok (),
        { w with dict := { w.dict with
            suggestions := filterWordsByPrefix env c.cachedWords term } }) := by
  have hpos : (filterWordsByPrefix env c.cachedWords term).length > 0 :=
    List.length_pos.mpr hit
  simp only [fetchSuggestions, two_le_length_guard term h, hpos]
  rfl

theorem fetchSuggestions_miss (env : Env) (c : DictState) (term : JSString) (w : World)
    (h : 2 ≤ term.length) (miss : filterWordsByPrefix env c.cachedWords term = []) :
    fetchSuggestions env c term w =
      match searchWord env term w with
      | (Except.ok data, w2) =>
        (Except.ok (),
          { w2 with dict := { w2.dict with
              suggestions := if data.exact_match then [] else data.suggestions.getD [] } })
      | (Except.error _, w2) =>
        (Except.ok (),
          { w2 with
            dict := { w2.dict with suggestions := [] }
            trace := w2.trace ++ [Event.consoleError] }) := by
  simp only [fetchSuggestions, two_le_length_guard term h, miss]
  simp only [bind, JS.andThen, pure, JS.ret, tryCatch, tryCatchThe, MonadExcept.tryCatch,
    JS.catchErr, setSuggestions, modifyWorld, emit, consoleError, List.length_nil,
    gt_iff_lt, lt_self_iff_false, if_false, Bool.false_eq_true]
  generalize searchWord env term w = res
  rcases res with ⟨err | data, w2⟩
  · rfl
  · rcases data with ⟨dw, _ | _, dm, _ | ds⟩
    · rfl
    · rcases ds with _ | ⟨a, l⟩
      · rfl
      · simp [JS.andThen, JS.ret, modifyWorld]
    · rfl
    · rfl

/-! ## What a submit leaves behind -/

theorem searchWordCalls_preventDefault (e : Bool) (t : List Event) :
    searchWordCalls (if e = true then t ++ [Event.preventDefault] else t) = searchWordCalls t := by
  cases e <;> simp [searchWordCalls, List.filterMap_append]

/-- Past its guard, a submit is determined by the outcome of the search request: `w2` is the
world `searchWord` leaves, which differs from `w` in the three cells set before the call, in
the session and in the trace. -/
theorem handleSearch_cases (env : Env) (c : DictState) (e : Bool) (o : Option JSString)
    (w : World) (hne : termToSearch c o ≠ []) :
    ∃ w2 : World,
      w2.dict = { w.dict with isLoading := true, error := [], suggestions := [] } ∧
      w2.localStorage = w.localStorage ∧
      searchWordCalls w2.trace = searchWordCalls w.trace ++ [termToSearch c o] ∧
      handleSearch env c e o w =
        match env.net.postSearch (termToSearch c o) with
        | Except.ok data =>
          if data.exact_match then
            (Except.ok (),
              { w2 with
                dict := { w2.dict with
                  result := some data
                  isLoading := false
                  recentSearches :=
                    updatedSearches env c.recentSearches data.word true data.meaning }
                localStorage :=
                  (recentSearchesKey,
                    env.stringify
                      (updatedSearches env c.recentSearches data.word true data.meaning))
                    :: w2.localStorage.filter fun kv => kv.1 != recentSearchesKey
                trace := w2.trace ++ [Event.setItem recentSearchesKey
                  (env.stringify
                    (updatedSearches env c.recentSearches data.word true data.meaning))] })
          else
            (Except.ok (),
              { w2 with dict := { w2.dict with result := some data, isLoading := false } })
        | Except.error _ =>
          (Except.ok (),
            { w2 with
              dict := { w2.dict with error := searchErrorMessage, isLoading := false }
              trace := w2.trace ++ [Event.consoleError] }) := by
  rw [handleSearch_run env c e o w hne]
  generalize hsw : searchWord env (termToSearch c o) _ = res
  have h1 : res.1 = env.net.postSearch (termToSearch c o) := by
    rw [← hsw, searchWord_fst]
  have hd : res.2.dict = { w.dict with isLoading := true, error := [], suggestions := [] } := by
    rw [← hsw]; exact (searchWord_frame _ _ _).1
  have hl : res.2.localStorage = w.localStorage := by
    rw [← hsw]; exact (searchWord_frame _ _ _).2.1
  have ht : searchWordCalls res.2.trace = searchWordCalls w.trace ++ [termToSearch c o] := by
    rw [← hsw, (searchWord_frame _ _ _).2.2]
    exact congrArg (· ++ [termToSearch c o]) (searchWordCalls_preventDefault e w.trace)
  rcases res with ⟨out, w2⟩
  simp only at h1 hd hl ht
  subst h1
  refine ⟨w2, hd, hl, ht, ?_⟩
  rcases env.net.postSearch (termToSearch c o) with err | data <;> rfl

/-- A submit whose search fails: the outcome, the component state, the storage, the calls. -/
theorem handleSearch_failed (env : Env) (c : DictState) (e : Bool) (o : Option JSString)
    (w : World) (err : JSError) (hne : termToSearch c o ≠ [])
    (hfail : env.net.postSearch (termToSearch c o) = Except.error err) :
    (handleSearch env c e o w).1 = Except.ok () ∧
    (handleSearch env c e o w).2.dict =
      { w.dict with isLoading := false, error := searchErrorMessage, suggestions := [] } ∧
    (handleSearch env c e o w).2.localStorage = w.localStorage ∧
    searchWordCalls (handleSearch env c e o w).2.trace =
      searchWordCalls w.trace ++ [termToSearch c o] := by
  obtain ⟨w2, hd, hl, ht, hrun⟩ := handleSearch_cases env c e o w hne
  rw [hrun, hfail]
  refine ⟨rfl, ?_, hl, ?_⟩
  · simp only [hd]
  · simpa [searchWordCalls, List.filterMap_append] using ht

/-- A submit answered without an exact match. -/
theorem handleSearch_inexact (env : Env) (c : DictState) (e : Bool) (o : Option JSString)
    (w : World) (data : SearchResponse) (hne : termToSearch c o ≠ [])
    (hok : env.net.postSearch (termToSearch c o) = Except.ok data)
    (hx : data.exact_match = false) :
    (handleSearch env c e o w).1 = Except.ok () ∧
    (handleSearch env c e o w).2.dict =
      { w.dict with result := some data, isLoading := false, error := [], suggestions := [] } ∧
    (handleSearch env c e o w).2.localStorage = w.localStorage ∧
    searchWordCalls (handleSearch env c e o w).2.trace =
      searchWordCalls w.trace ++ [termToSearch c o] := by
  obtain ⟨w2, hd, hl, ht, hrun⟩ := handleSearch_cases env c e o w hne
  rw [hrun, hok]
  dsimp only
  rw [hx]
  refine ⟨rfl, ?_, hl, ht⟩
  simp only [hd, Bool.false_eq_true, if_false]

/-- A submit answered with an exact match. -/
theorem handleSearch_exact (env : Env) (c : DictState) (e : Bool) (o : Option JSString)
    (w : World) (data : SearchResponse) (hne : termToSearch c o ≠ [])
    (hok : env.net.postSearch (termToSearch c o) = Except.ok data)
    (hx : data.exact_match = true) :
    (handleSearch env c e o w).1 = Except.ok () ∧
    (handleSearch env c e o w).2.dict =
      { w.dict with
        result := some data, isLoading := false, error := [], suggestions := []
        recentSearches := updatedSearches env c.recentSearches data.word true data.meaning } ∧
    (handleSearch env c e o w).2.localStorage =
      (recentSearchesKey,
        env.stringify (updatedSearches env c.recentSearches data.word true data.meaning))
        :: w.localStorage.filter (fun kv => kv.1 != recentSearchesKey) ∧
    searchWordCalls (handleSearch env c e o w).2.trace =
      searchWordCalls w.trace ++ [termToSearch c o] := by
  obtain ⟨w2, hd, hl, ht, hrun⟩ := handleSearch_cases env c e o w hne
  rw [hrun, hok]
  dsimp only
  rw [hx]
  refine ⟨rfl, ?_, ?_, ?_⟩
  · simp only [hd, if_true]
  · simp only [hl, if_true]
  · simpa [searchWordCalls, List.filterMap_append] using ht

theorem handleSuggestionSelect_run (env : Env) (c : DictState) (s : JSString) (w : World) :
    handleSuggestionSelect env c s w =
      handleSearch env c false (some s)
        { w with dict := { w.dict with searchTerm := s, suggestions := [] } } := rfl

theorem handleSuggestionClick_run (env : Env) (c : DictState) (s : JSString) (w : World) :
    handleSuggestionClick env c s w =
      handleSearch env c false (some s) { w with dict := { w.dict with searchTerm := s } } :=
  rfl

/-- After `handleSearch` the suggestion list is empty or the one it found. -/
theorem handleSearch_suggestions (env : Env) (c : DictState) (e : Bool) (o : Option JSString)
    (w : World) :
    (handleSearch env c e o w).2.dict.suggestions =
      if termToSearch c o = [] then w.dict.suggestions else [] := by
  by_cases h : termToSearch c o = []
  · rw [handleSearch_empty env c e o w h, if_pos h]
    cases e <;> rfl
  · rw [if_neg h]
    rcases hp : env.net.postSearch (termToSearch c o) with err | data
    · rw [(handleSearch_failed env c e o w err h hp).2.1]
    · cases hx : data.exact_match
      · rw [(handleSearch_inexact env c e o w data h hp hx).2.1]
      · rw [(handleSearch_exact env c e o w data h hp hx).2.1]

/-! ## The suggestion pipeline (C1 - C4) -/

/-- C1. For a term of two code units or more with at least one case-insensitive prefix match
in the cache, `filterWordsByPrefix` returns, and `fetchSuggestions` sets as the suggestion list,
the first five cache words in cache order whose lower-cased form starts with the lower-cased
term; `fetchSuggestions` returns normally, changes nothing else and leaves the trace as it
was, so `searchWord` is not called. -/
theorem fetchSuggestions_cache_hit (env : Env) (c : DictState) (w : World) (term : JSString)
    (hlen : 2 ≤ term.length)
    (hmatch : ∃ word ∈ c.cachedWords, prefixMatch env term word = true) :
    filterWordsByPrefix env c.cachedWords term = firstMatches env term 5 c.cachedWords ∧
    fetchSuggestions env c term w =
      (Except.ok (),
        { w with dict := { w.dict with
            suggestions := firstMatches env term 5 c.cachedWords } }) ∧
    searchWordCalls (fetchSuggestions env c term w).2.trace = searchWordCalls w.trace := by
  have hfilter : filterWordsByPrefix env c.cachedWords term =
      firstMatches env term 5 c.cachedWords := by
    rw [filterWordsByPrefix_eq env c.cachedWords term hlen, firstMatches_eq]
  have hit : filterWordsByPrefix env c.cachedWords term ≠ [] := by
    rw [filterWordsByPrefix_eq env c.cachedWords term hlen]
    obtain ⟨word, hmem, hword⟩ := hmatch
    intro hnil
    have hfil : (c.cachedWords.filter fun x => prefixMatch env term x) = [] := by
      rcases List.take_eq_nil_iff.mp hnil with h5 | h
      · exact absurd h5 (by decide)
      · exact h
    have : word ∈ c.cachedWords.filter fun x => prefixMatch env term x :=
      List.mem_filter.mpr ⟨hmem, hword⟩
    rw [hfil] at this
    exact absurd this (List.not_mem_nil _)
  have hrun := fetchSuggestions_hit env c term w hlen hit
  rw [hfilter] at hrun
  refine ⟨hfilter, hrun, ?_⟩
  rw [hrun]

theorem fetchSuggestions_cache_hit_witness :
    fetchSuggestions (sampleEnv (Except.error (httpError 500)) (Except.ok (validation true)))
        (sampleWorld [] [str "apple", str "Apply", str "bat", str "APT"] []).dict (str "aP")
        (sampleWorld [] [str "apple", str "Apply", str "bat", str "APT"] []) =
      (Except.ok (),
        { sampleWorld [] [str "apple", str "Apply", str "bat", str "APT"] [] with
          dict := { (sampleWorld [] [str "apple", str "Apply", str "bat", str "APT"] []).dict with
            suggestions := [str "apple", str "Apply", str "APT"] } }) :=
  (fetchSuggestions_cache_hit
    (sampleEnv (Except.error (httpError 500)) (Except.ok (validation true)))
    (sampleWorld [] [str "apple", str "Apply", str "bat", str "APT"] []).dict
    (sampleWorld [] [str "apple", str "Apply", str "bat", str "APT"] []) (str "aP")
    (by decide) ⟨str "apple", by decide, by decide⟩).2.1

/-- C2. For a term of fewer than two code units (the empty term included) and any cache,
`filterWordsByPrefix` returns the empty list and `fetchSuggestions` returns normally with the
suggestion list set to empty, nothing else changed and the trace as it was, so `searchWord` is
never called. -/
theorem fetchSuggestions_short_term (env : Env) (c : DictState) (w : World) (term : JSString)
    (cache : List JSString) (hlen : term.length < 2) :
    filterWordsByPrefix env cache term = [] ∧
    fetchSuggestions env c term w =
      (Except.ok (), { w with dict := { w.dict with suggestions := [] } }) ∧
    searchWordCalls (fetchSuggestions env c term w).2.trace = searchWordCalls w.trace := by
  refine ⟨?_, fetchSuggestions_short env c term w hlen, ?_⟩
  · unfold filterWordsByPrefix
    have hg : (term.isEmpty || decide (term.length < 2)) = true := length_lt_two_guard term hlen
    simp [hg]
  · rw [fetchSuggestions_short env c term w hlen]

theorem fetchSuggestions_short_term_witness :
    filterWordsByPrefix (sampleEnv (Except.ok (inexactAnswer (str "a") [str "apple"]))
        (Except.ok (validation true))) [str "apple"] (str "a") = [] ∧
    (fetchSuggestions (sampleEnv (Except.ok (inexactAnswer (str "a") [str "apple"]))
        (Except.ok (validation true))) (sampleWorld (str "a") [str "apple"] []).dict (str "a")
        (sampleWorld (str "a") [str "apple"] [])).2.trace = [] :=
  have h := fetchSuggestions_short_term
    (sampleEnv (Except.ok (inexactAnswer (str "a") [str "apple"])) (Except.ok (validation true)))
    (sampleWorld (str "a") [str "apple"] []).dict (sampleWorld (str "a") [str "apple"] [])
    (str "a") [str "apple"] (by decide)
  ⟨h.1, by rw [h.2.1]; rfl⟩

theorem filterWordsByPrefix_no_match (env : Env) (cache : List JSString) (term : JSString)
    (hmiss : ∀ word ∈ cache, prefixMatch env term word = false) :
    filterWordsByPrefix env cache term = [] := by
  unfold filterWordsByPrefix
  split
  · rfl
  · have hfil : (cache.filter fun word =>
        (env.toLowerCase term).isPrefixOf (env.toLowerCase word)) = [] := by
      apply List.filter_eq_nil_iff.mpr
      intro word hword
      have := hmiss word hword
      simp only [prefixMatch] at this
      simp [this]
    simp only [hfil, List.take_nil]

/-- C3. For a term of two code units or more with no case-insensitive prefix match in the
cache (an empty cache included), `fetchSuggestions` returns normally, whatever the outcome of
the search, `searchWord` is called exactly once, with that term, and the suggestion list left
is: empty when the response has `exact_match` true; the `suggestions` field of the response,
as it is, when `exact_match` is false and the field is present; empty when the field is absent
or the call fails. -/
theorem fetchSuggestions_fallback (env : Env) (c : DictState) (w : World) (term : JSString)
    (hlen : 2 ≤ term.length)
    (hmiss : ∀ word ∈ c.cachedWords, prefixMatch env term word = false) :
    (fetchSuggestions env c term w).1 = Except.ok () ∧
    searchWordCalls (fetchSuggestions env c term w).2.trace =
      searchWordCalls w.trace ++ [term] ∧
    (fetchSuggestions env c term w).2.dict.suggestions =
      match (searchWord env term w).1 with
      | Except.ok data =>
        if data.exact_match then []
        else
          match data.suggestions with
          | some l => l
          | none => []
      | Except.error _ => [] := by
  have miss := filterWordsByPrefix_no_match env c.cachedWords term hmiss
  rw [fetchSuggestions_miss env c term w hlen miss]
  have ht := (searchWord_frame env term w).2.2
  rcases hsw : searchWord env term w with ⟨err | data, w2⟩ <;> rw [hsw] at ht
  · refine ⟨rfl, ?_, rfl⟩
    simpa [searchWordCalls, List.filterMap_append] using ht
  · refine ⟨rfl, ht, ?_⟩
    rcases data with ⟨dw, _ | _, dm, _ | ds⟩ <;> rfl

theorem fetchSuggestions_fallback_witness :
    searchWordCalls
      (fetchSuggestions
        (sampleEnv (Except.ok (inexactAnswer (str "xyz") [str "xylophone"]))
          (Except.ok (validation true)))
        (sampleWorld (str "xyz") [str "apple"] []).dict (str "xyz")
        (sampleWorld (str "xyz") [str "apple"] [])).2.trace = [str "xyz"] ∧
    (fetchSuggestions
        (sampleEnv (Except.ok (inexactAnswer (str "xyz") [str "xylophone"]))
          (Except.ok (validation true)))
        (sampleWorld (str "xyz") [str "apple"] []).dict (str "xyz")
        (sampleWorld (str "xyz") [str "apple"] [])).2.dict.suggestions = [str "xylophone"] :=
  have h := fetchSuggestions_fallback
    (sampleEnv (Except.ok (inexactAnswer (str "xyz") [str "xylophone"]))
      (Except.ok (validation true)))
    (sampleWorld (str "xyz") [str "apple"] []).dict (sampleWorld (str "xyz") [str "apple"] [])
    (str "xyz") (by decide) (by decide)
  ⟨h.2.1, h.2.2⟩

/-- C4, as the claim states it, fails: with an empty cache and a response that is not an exact
match and carries six suggestions, `fetchSuggestions` leaves a suggestion list of length six. -/
theorem fetchSuggestions_length_counterexample :
    ¬ ∀ (env : Env) (w : World) (term : JSString),
        (fetchSuggestions env w.dict term w).2.dict.suggestions.length ≤ 5 := by
  intro h
  have h6 := h
    (sampleEnv
      (Except.ok (inexactAnswer (str "xy")
        [str "xa", str "xb", str "xc", str "xd", str "xe", str "xf"]))
      (Except.ok (validation true)))
    (sampleWorld (str "xy") [] []) (str "xy")
  revert h6
  decide

/-- C4, amended. After `fetchSuggestions` the suggestion list has at most five entries
provided the `suggestions` field of a response that is not an exact match, when present, has
at most five; after `handleSearch` the list is empty when the effective term is non-empty and
is the list as it was otherwise; after `handleSuggestionSelect` it is empty. -/
theorem suggestions_length_le_five (env : Env) (c : DictState) (w : World) (term : JSString)
    (hserver : ∀ data l, (searchWord env term w).1 = Except.ok data →
      data.exact_match = false → data.suggestions = some l → l.length ≤ 5) :
    (fetchSuggestions env c term w).2.dict.suggestions.length ≤ 5 ∧
    (∀ e o, (handleSearch env c e o w).2.dict.suggestions =
      if termToSearch c o = [] then w.dict.suggestions else []) ∧
    (∀ s, (handleSuggestionSelect env c s w).2.dict.suggestions = []) := by
  refine ⟨?_, fun e o => handleSearch_suggestions env c e o w, ?_⟩
  · by_cases hlen : term.length < 2
    · rw [fetchSuggestions_short env c term w hlen]
      simp
    · have hlen2 : 2 ≤ term.length := Nat.le_of_not_lt hlen
      by_cases hit : filterWordsByPrefix env c.cachedWords term = []
      · rw [fetchSuggestions_miss env c term w hlen2 hit]
        rcases hsw : searchWord env term w with ⟨err | data, w2⟩
        · simp
        · rw [hsw] at hserver
          rcases data with ⟨dw, _ | _, dm, _ | ds⟩
          · simp
          · simpa using hserver _ ds rfl rfl rfl
          · simp
          · simp
      · rw [fetchSuggestions_hit env c term w hlen2 hit,
          filterWordsByPrefix_eq env c.cachedWords term hlen2]
        exact List.length_take_le _ _
  · intro s
    rw [handleSuggestionSelect_run, handleSearch_suggestions]
    split <;> rfl

theorem suggestions_length_le_five_witness :
    (fetchSuggestions
        (sampleEnv (Except.ok (inexactAnswer (str "xyz") [str "xylophone"]))
          (Except.ok (validation true)))
        (sampleWorld (str "xyz") [str "apple"] []).dict (str "xyz")
        (sampleWorld (str "xyz") [str "apple"] [])).2.dict.suggestions.length ≤ 5 :=
  (suggestions_length_le_five
    (sampleEnv (Except.ok (inexactAnswer (str "xyz") [str "xylophone"]))
      (Except.ok (validation true)))
    (sampleWorld (str "xyz") [str "apple"] []).dict (sampleWorld (str "xyz") [str "apple"] [])
    (str "xyz")
    (by
      intro data l hdata _ hl
      have hrun : (searchWord
          (sampleEnv (Except.ok (inexactAnswer (str "xyz") [str "xylophone"]))
            (Except.ok (validation true)))
          (str "xyz") (sampleWorld (str "xyz") [str "apple"] [])).1 =
          Except.ok (inexactAnswer (str "xyz") [str "xylophone"]) := rfl
      rw [hrun] at hdata
      cases hdata
      cases hl
      decide)).1

/-! ## The history (C5) -/

theorem historyWords_filter_not_mem (l : List RecentSearch) (word : JSString) :
    word ∉ historyWords (l.filter fun s => s.word != word) := by
  intro hmem
  obtain ⟨s, hs, hword⟩ := List.mem_map.mp hmem
  have hne := (List.mem_filter.mp hs).2
  simp only [bne_iff_ne, ne_eq] at hne
  exact hne hword

theorem updatedSearches_words (env : Env) (l : List RecentSearch) (word : JSString)
    (b : Bool) (m : Option JSString) :
    historyWords (updatedSearches env l word b m) =
      word :: (historyWords (l.filter fun s => s.word != word)).take 4 := by
  simp [updatedSearches, historyWords, searchEntry, List.map_take]

/-- C5. From a history in which no two entries share a word, `saveSearch` leaves, for any
word, a history of at most five entries in which no two entries share a word; the entry at
the front is the new entry for the word, exactly one entry carries the word, and no entry
behind the front carries it, so an older entry for the word is gone. -/
theorem saveSearch_history (env : Env) (w : World) (word : JSString) (isExactMatch : Bool)
    (meaning : Option JSString)
    (hnodup : (historyWords w.dict.recentSearches).Nodup) :
    (saveSearch env w.dict word isExactMatch meaning w).2.dict.recentSearches =
      updatedSearches env w.dict.recentSearches word isExactMatch meaning ∧
    (updatedSearches env w.dict.recentSearches word isExactMatch meaning).length ≤ 5 ∧
    (historyWords (updatedSearches env w.dict.recentSearches word isExactMatch meaning)).Nodup ∧
    (updatedSearches env w.dict.recentSearches word isExactMatch meaning).head? =
      some (searchEntry env word isExactMatch meaning) ∧
    (historyWords
      (updatedSearches env w.dict.recentSearches word isExactMatch meaning)).count word = 1 ∧
    ∀ s ∈ (updatedSearches env w.dict.recentSearches word isExactMatch meaning).tail,
      s.word ≠ word := by
  have hsub : (historyWords (w.dict.recentSearches.filter fun s => s.word != word)).Sublist
      (historyWords w.dict.recentSearches) :=
    List.Sublist.map _ (List.filter_sublist _)
  have htake : ((historyWords (w.dict.recentSearches.filter fun s => s.word != word)).take 4).Sublist
      (historyWords (w.dict.recentSearches.filter fun s => s.word != word)) :=
    List.take_sublist _ _
  have hnot : word ∉ (historyWords (w.dict.recentSearches.filter fun s => s.word != word)).take 4 :=
    fun hmem => historyWords_filter_not_mem _ _ (htake.subset hmem)
  refine ⟨rfl, ?_, ?_, ?_, ?_, ?_⟩
  · exact List.length_take_le _ _
  · rw [updatedSearches_words]
    exact List.nodup_cons.mpr ⟨hnot, (hnodup.sublist hsub).sublist htake⟩
  · simp [updatedSearches]
  · rw [updatedSearches_words, List.count_cons_self, List.count_eq_zero_of_not_mem hnot]
  · intro s hs heq
    have hs4 : s ∈ (w.dict.recentSearches.filter fun s => s.word != word).take 4 := by
      simpa [updatedSearches] using hs
    have hmem := (List.mem_filter.mp (List.mem_of_mem_take hs4)).2
    simp only [bne_iff_ne, ne_eq] at hmem
    exact hmem heq

theorem saveSearch_history_witness :
    (saveSearch (sampleEnv (Except.error (httpError 500)) (Except.ok (validation true)))
      (sampleWorld [] []
        [sampleEntry (str "a"), sampleEntry (str "b"), sampleEntry (str "c"),
         sampleEntry (str "d"), sampleEntry (str "e")]).dict
      (str "c") true (some (str "third letter"))
      (sampleWorld [] []
        [sampleEntry (str "a"), sampleEntry (str "b"), sampleEntry (str "c"),
         sampleEntry (str "d"), sampleEntry (str "e")])).2.dict.recentSearches =
      [{ word := str "c", timestamp := str "2024-05-01T10:00:00.000Z", isExactMatch := true,
         meaning := some (str "third letter") },
       sampleEntry (str "a"), sampleEntry (str "b"), sampleEntry (str "d"),
       sampleEntry (str "e")] :=
  (saveSearch_history (sampleEnv (Except.error (httpError 500)) (Except.ok (validation true)))
    (sampleWorld [] []
      [sampleEntry (str "a"), sampleEntry (str "b"), sampleEntry (str "c"),
       sampleEntry (str "d"), sampleEntry (str "e")])
    (str "c") true (some (str "third letter")) (by decide)).1.trans (by decide)

/-! ## Submit (C6 - C9) -/

/-- C6, as the claim states it, fails: an override term of two spaces is empty once trimmed,
yet `handleSearch` calls `searchWord` with it and changes the component state. -/
theorem handleSearch_blank_override_counterexample :
    ¬ ∀ (env : Env) (w : World) (e : Bool) (o : Option JSString),
        trim (termToSearch w.dict o) = [] →
        searchWordCalls (handleSearch env w.dict e o w).2.trace = searchWordCalls w.trace ∧
        (handleSearch env w.dict e o w).2.dict = w.dict := by
  intro h
  have h2 := h
    (sampleEnv (Except.ok (exactAnswer (str "  ") (str "blank"))) (Except.ok (validation true)))
    (sampleWorld [] [] []) false (some (str "  ")) (by decide)
  revert h2
  decide

/-- Past its guard, a submit calls `searchWord` exactly once, with the effective term. -/
theorem handleSearch_calls (env : Env) (c : DictState) (e : Bool) (o : Option JSString)
    (w : World) (hne : termToSearch c o ≠ []) :
    searchWordCalls (handleSearch env c e o w).2.trace =
      searchWordCalls w.trace ++ [termToSearch c o] := by
  rcases hp : env.net.postSearch (termToSearch c o) with err | data
  · exact (handleSearch_failed env c e o w err hne hp).2.2.2
  · cases hx : data.exact_match
    · exact (handleSearch_inexact env c e o w data hne hp hx).2.2.2
    · exact (handleSearch_exact env c e o w data hne hp hx).2.2.2

/-- C6, amended. When the override is null or the empty string and the input is empty once
trimmed, `handleSearch` is a no-op: it returns normally, `searchWord` is not called, and the
component state (result, error, loading flag, suggestions, recent searches), the session and
the storage are as they were. A non-empty override term is searched as it is, without
trimming: `searchWord` is called once with exactly that term, whatever the input holds. With a
null or empty override and an input that is not empty once trimmed, `searchWord` is called
once with the trimmed input. -/
theorem handleSearch_noop (env : Env) (w : World) (e : Bool) (o : Option JSString)
    (hoverride : o = none ∨ o = some []) (hblank : trim w.dict.searchTerm = []) :
    ((handleSearch env w.dict e o w).1 = Except.ok () ∧
      searchWordCalls (handleSearch env w.dict e o w).2.trace = searchWordCalls w.trace ∧
      (handleSearch env w.dict e o w).2.dict = w.dict ∧
      (handleSearch env w.dict e o w).2.auth = w.auth ∧
      (handleSearch env w.dict e o w).2.localStorage = w.localStorage) ∧
    (∀ (w2 : World) (e2 : Bool) (t : JSString), t ≠ [] →
      searchWordCalls (handleSearch env w2.dict e2 (some t) w2).2.trace =
        searchWordCalls w2.trace ++ [t]) ∧
    (∀ (w2 : World) (e2 : Bool) (o2 : Option JSString), o2 = none ∨ o2 = some [] →
      trim w2.dict.searchTerm ≠ [] →
      searchWordCalls (handleSearch env w2.dict e2 o2 w2).2.trace =
        searchWordCalls w2.trace ++ [trim w2.dict.searchTerm]) := by
  refine ⟨?_, ?_, ?_⟩
  · have hempty : termToSearch w.dict o = [] := by
      rcases hoverride with h | h <;> rw [h] <;> exact hblank
    rw [handleSearch_empty env w.dict e o w hempty]
    cases e
    · exact ⟨rfl, rfl, rfl, rfl, rfl⟩
    · refine ⟨rfl, ?_, rfl, rfl, rfl⟩
      simp [searchWordCalls, List.filterMap_append]
  · intro w2 e2 t ht
    have hterm : termToSearch w2.dict (some t) = t := by
      cases t with
      | nil => exact absurd rfl ht
      | cons a l => rfl
    have h := handleSearch_calls env w2.dict e2 (some t) w2 (by rw [hterm]; exact ht)
    rw [hterm] at h
    exact h
  · intro w2 e2 o2 ho2 hinput
    have hterm : termToSearch w2.dict o2 = trim w2.dict.searchTerm := by
      rcases ho2 with h | h <;> rw [h] <;> rfl
    have h := handleSearch_calls env w2.dict e2 o2 w2 (by rw [hterm]; exact hinput)
    rw [hterm] at h
    exact h

theorem handleSearch_noop_witness :
    (handleSearch
        (sampleEnv (Except.ok (exactAnswer (str "cat") (str "a feline")))
          (Except.ok (validation true)))
        (sampleWorld (str "  ") [] [sampleEntry (str "dog")]).dict true none
        (sampleWorld (str "  ") [] [sampleEntry (str "dog")])).2.dict =
      (sampleWorld (str "  ") [] [sampleEntry (str "dog")]).dict ∧
    searchWordCalls
      (handleSearch
        (sampleEnv (Except.ok (exactAnswer (str "cat") (str "a feline")))
          (Except.ok (validation true)))
        (sampleWorld (str "  ") [] [sampleEntry (str "dog")]).dict false (some (str " cat "))
        (sampleWorld (str "  ") [] [sampleEntry (str "dog")])).2.trace = [str " cat "] :=
  have h := handleSearch_noop
    (sampleEnv (Except.ok (exactAnswer (str "cat") (str "a feline")))
      (Except.ok (validation true)))
    (sampleWorld (str "  ") [] [sampleEntry (str "dog")]) true none (Or.inl rfl) (by decide)
  ⟨h.1.2.2.1,
    h.2.1 (sampleWorld (str "  ") [] [sampleEntry (str "dog")]) false (str " cat ")
      (by decide)⟩

/-- C7. On a submit that goes through and whose search response has `exact_match` true, the
result becomes the response; the history becomes the new entry (the word and meaning of the
response, `isExactMatch` true, the current timestamp) followed by the prior entries with a
different word, in their order, cut to five; and the value under the `recentSearches` key of
the storage is the serialization of exactly that history. -/
theorem handleSearch_exact_match (env : Env) (w : World) (e : Bool) (o : Option JSString)
    (data : SearchResponse)
    (hne : termToSearch w.dict o ≠ [])
    (hok : (searchWord env (termToSearch w.dict o) w).1 = Except.ok data)
    (hx : data.exact_match = true) :
    (handleSearch env w.dict e o w).2.dict.result = some data ∧
    (handleSearch env w.dict e o w).2.dict.recentSearches =
      (({ word := data.word, timestamp := env.now, isExactMatch := true, meaning := data.meaning } :
          RecentSearch) ::
        w.dict.recentSearches.filter fun s => s.word != data.word).take 5 ∧
    getItem (handleSearch env w.dict e o w).2.localStorage (str "recentSearches") =
      some (env.stringify
        ((({ word := data.word, timestamp := env.now, isExactMatch := true, meaning := data.meaning } :
            RecentSearch) ::
          w.dict.recentSearches.filter fun s => s.word != data.word).take 5)) := by
  rw [searchWord_fst] at hok
  obtain ⟨_, hd, hl, _⟩ := handleSearch_exact env w.dict e o w data hne hok hx
  have hupd : updatedSearches env w.dict.recentSearches data.word true data.meaning =
      (({ word := data.word, timestamp := env.now, isExactMatch := true, meaning := data.meaning } :
          RecentSearch) ::
        w.dict.recentSearches.filter fun s => s.word != data.word).take 5 := by
    rfl
  rw [hd, hl, hupd]
  refine ⟨rfl, rfl, ?_⟩
  simp [getItem, recentSearchesKey]

theorem handleSearch_exact_match_witness :
    (handleSearch
        (sampleEnv (Except.ok (exactAnswer (str "cat") (str "a small domesticated feline")))
          (Except.ok (validation true)))
        (sampleWorld (str " cat ") [] [sampleEntry (str "dog"), sampleEntry (str "cat")]).dict
        true none
        (sampleWorld (str " cat ") []
          [sampleEntry (str "dog"), sampleEntry (str "cat")])).2.dict.recentSearches =
      [{ word := str "cat", timestamp := str "2024-05-01T10:00:00.000Z", isExactMatch := true,
         meaning := some (str "a small domesticated feline") },
       sampleEntry (str "dog")] :=
  (handleSearch_exact_match
    (sampleEnv (Except.ok (exactAnswer (str "cat") (str "a small domesticated feline")))
      (Except.ok (validation true)))
    (sampleWorld (str " cat ") [] [sampleEntry (str "dog"), sampleEntry (str "cat")])
    true none (exactAnswer (str "cat") (str "a small domesticated feline"))
    (by decide) rfl rfl).2.1.trans (by decide)

/-- C8. On a submit that goes through and whose search response has `exact_match` false, the
history and the whole storage, the `recentSearches` entry included, are as they were, and the
result is replaced by the response. -/
theorem handleSearch_no_exact_match (env : Env) (w : World) (e : Bool) (o : Option JSString)
    (data : SearchResponse)
    (hne : termToSearch w.dict o ≠ [])
    (hok : (searchWord env (termToSearch w.dict o) w).1 = Except.ok data)
    (hx : data.exact_match = false) :
    (handleSearch env w.dict e o w).2.dict.recentSearches = w.dict.recentSearches ∧
    (handleSearch env w.dict e o w).2.localStorage = w.localStorage ∧
    getItem (handleSearch env w.dict e o w).2.localStorage (str "recentSearches") =
      getItem w.localStorage (str "recentSearches") ∧
    (handleSearch env w.dict e o w).2.dict.result = some data := by
  rw [searchWord_fst] at hok
  obtain ⟨_, hd, hl, _⟩ := handleSearch_inexact env w.dict e o w data hne hok hx
  rw [hd, hl]
  exact ⟨rfl, rfl, rfl, rfl⟩

theorem handleSearch_no_exact_match_witness :
    (handleSearch
        (sampleEnv (Except.ok (inexactAnswer (str "xyz") [str "xylophone"]))
          (Except.ok (validation true)))
        (sampleWorld (str "xyz") [] []).dict true none
        (sampleWorld (str "xyz") [] [])).2.dict.recentSearches = [] ∧
    (handleSearch
        (sampleEnv (Except.ok (inexactAnswer (str "xyz") [str "xylophone"]))
          (Except.ok (validation true)))
        (sampleWorld (str "xyz") [] []).dict true none
        (sampleWorld (str "xyz") [] [])).2.dict.result =
      some (inexactAnswer (str "xyz") [str "xylophone"]) :=
  have h := handleSearch_no_exact_match
    (sampleEnv (Except.ok (inexactAnswer (str "xyz") [str "xylophone"]))
      (Except.ok (validation true)))
    (sampleWorld (str "xyz") [] []) true none (inexactAnswer (str "xyz") [str "xylophone"])
    (by decide) rfl rfl
  ⟨h.1, h.2.2.2⟩

/-- C9. On a submit with a non-empty term whose `searchWord` call fails, with any error,
`handleSearch` returns normally, sets the error message to the fixed text
"Error searching for word. Please try again.", leaves the previous result and the history as
they were, and ends with the loading flag false. -/
theorem handleSearch_search_fails (env : Env) (w : World) (e : Bool) (o : Option JSString)
    (err : JSError)
    (hne : termToSearch w.dict o ≠ [])
    (hfail : (searchWord env (termToSearch w.dict o) w).1 = Except.error err) :
    (handleSearch env w.dict e o w).1 = Except.ok () ∧
    (handleSearch env w.dict e o w).2.dict.error =
      str "Error searching for word. Please try again." ∧
    (handleSearch env w.dict e o w).2.dict.result = w.dict.result ∧
    (handleSearch env w.dict e o w).2.dict.recentSearches = w.dict.recentSearches ∧
    (handleSearch env w.dict e o w).2.dict.isLoading = false := by
  rw [searchWord_fst] at hfail
  obtain ⟨h1, hd, _, _⟩ := handleSearch_failed env w.dict e o w err hne hfail
  rw [hd]
  exact ⟨h1, rfl, rfl, rfl, rfl⟩

theorem handleSearch_search_fails_witness :
    (handleSearch (sampleEnv (Except.error (httpError 500)) (Except.ok (validation true)))
        (sampleWorld (str "cat") [] [sampleEntry (str "dog")]).dict true none
        (sampleWorld (str "cat") [] [sampleEntry (str "dog")])).2.dict.error =
      str "Error searching for word. Please try again." :=
  (handleSearch_search_fails (sampleEnv (Except.error (httpError 500)) (Except.ok (validation true)))
    (sampleWorld (str "cat") [] [sampleEntry (str "dog")]) true none (httpError 500)
    (by decide) rfl).2.1

/-! ## The session effect of a search (C10) -/

/-- C10. When the search request fails with a status other than 401 (or with no response at
all), `searchWord` makes no validate-session request and leaves the session as it was. When it
fails with status 401, exactly one validate-session request is made; the session is cleared
(not authenticated, no user) when that re-validation reports `is_authenticated` false, and is
as it was when it reports `is_authenticated` true. When the search request succeeds the
session is as it was. -/
theorem searchWord_session (env : Env) (word : JSString) (w : World) :
    (∀ err, env.net.postSearch word = Except.error err → err.status? ≠ some 401 →
      validateSessionCalls (searchWord env word w).2.trace = validateSessionCalls w.trace ∧
      session (searchWord env word w).2 = session w) ∧
    (∀ err, env.net.postSearch word = Except.error err → err.status? = some 401 →
      validateSessionCalls (searchWord env word w).2.trace = validateSessionCalls w.trace + 1 ∧
      (∀ v, env.net.getValidateSession = Except.ok v → v.is_authenticated = false →
        session (searchWord env word w).2 = (false, none)) ∧
      (∀ v, env.net.getValidateSession = Except.ok v → v.is_authenticated = true →
        session (searchWord env word w).2 = session w)) ∧
    (∀ data, env.net.postSearch word = Except.ok data →
      validateSessionCalls (searchWord env word w).2.trace = validateSessionCalls w.trace ∧
      session (searchWord env word w).2 = session w) := by
  refine ⟨?_, ?_, ?_⟩
  · intro err h hs
    rw [searchWord_other env word w err h hs]
    exact ⟨by simp [validateSessionCalls, List.count_append], rfl⟩
  · intro err h hs
    refine ⟨?_, ?_, ?_⟩
    · rcases hv : env.net.getValidateSession with e2 | v
      · rw [searchWord_401_failed env word w err e2 h hs hv]
        simp [validateSessionCalls, List.count_append]
      · cases hb : v.is_authenticated
        · rw [searchWord_401_invalid env word w err v h hs hv hb]
          simp [validateSessionCalls, List.count_append]
        · rw [searchWord_401_valid env word w err v h hs hv hb]
          simp [validateSessionCalls, List.count_append]
    · intro v hv hb
      rw [searchWord_401_invalid env word w err v h hs hv hb]
      rfl
    · intro v hv hb
      rw [searchWord_401_valid env word w err v h hs hv hb]
      rfl
  · intro data h
    rw [searchWord_ok env word w data h]
    exact ⟨by simp [validateSessionCalls, List.count_append], rfl⟩

theorem searchWord_session_witness :
    validateSessionCalls
      (searchWord (sampleEnv (Except.error (httpError 401)) (Except.ok (validation false)))
        (str "cat") (sampleWorld (str "cat") [] [])).2.trace = 1 ∧
    session
      (searchWord (sampleEnv (Except.error (httpError 401)) (Except.ok (validation false)))
        (str "cat") (sampleWorld (str "cat") [] [])).2 = (false, none) :=
  have h := (searchWord_session
    (sampleEnv (Except.error (httpError 401)) (Except.ok (validation false)))
    (str "cat") (sampleWorld (str "cat") [] [])).2.1 (httpError 401) rfl rfl
  ⟨h.1, h.2.1 (validation false) rfl rfl⟩

/-! ## The auth gateway (C11 - C15) -/

/-- C11. `searchWord` never swallows a failure: when the search request fails, with any status
and whatever the re-validation does (succeeds, reports not authenticated, or itself fails),
`searchWord` throws the error the search request failed with; when the request succeeds,
`searchWord` returns the response data. -/
theorem searchWord_reraises (env : Env) (word : JSString) (w : World) :
    (∀ err, env.net.postSearch word = Except.error err →
      (searchWord env word w).1 = Except.error err) ∧
    (∀ data, env.net.postSearch word = Except.ok data →
      (searchWord env word w).1 = Except.ok data) := by
  constructor
  · intro err h
    by_cases hs : err.status? = some 401
    · rcases hv : env.net.getValidateSession with e2 | v
      · rw [searchWord_401_failed env word w err e2 h hs hv]
      · cases hb : v.is_authenticated
        · rw [searchWord_401_invalid env word w err v h hs hv hb]
        · rw [searchWord_401_valid env word w err v h hs hv hb]
    · rw [searchWord_other env word w err h hs]
  · intro data h
    rw [searchWord_ok env word w data h]

theorem searchWord_reraises_witness :
    (searchWord (sampleEnv (Except.error (httpError 401)) (Except.error (httpError 503)))
      (str "cat") (sampleWorld (str "cat") [] [])).1 = Except.error (httpError 401) :=
  (searchWord_reraises
    (sampleEnv (Except.error (httpError 401)) (Except.error (httpError 503)))
    (str "cat") (sampleWorld (str "cat") [] [])).1 (httpError 401) rfl

theorem login_ok (env : Env) (username password : JSString) (w : World)
    (h : env.net.postToken username password = Except.ok ()) :
    login env username password w =
      (Except.ok LoginResult.success,
        { w with
          auth := { w.auth with isAuthenticated := true, user := some { username := some username } }
          trace := w.trace ++
            [Event.login username password, Event.postToken username password] }) := by
  simp [login, axiosPostToken, bind, JS.andThen, emit, modifyWorld, await, tryCatch,
    tryCatchThe, MonadExcept.tryCatch, JS.catchErr, h, pure, JS.ret, setIsAuthenticated, setUser]

theorem login_failed (env : Env) (username password : JSString) (w : World) (err : JSError)
    (h : env.net.postToken username password = Except.error err) :
    login env username password w =
      (Except.ok (LoginResult.failure (loginMessage err)),
        { w with
          trace := w.trace ++
            [Event.login username password, Event.postToken username password,
             Event.consoleError] }) := by
  simp [login, axiosPostToken, bind, JS.andThen, emit, modifyWorld, await, tryCatch,
    tryCatchThe, MonadExcept.tryCatch, JS.catchErr, h, pure, JS.ret, consoleError]

/-- C12, as the claim states it, fails: a failed token request whose response carries an
empty `detail` makes `login` return the fallback text, not the `detail` that is present. -/
theorem login_empty_detail_counterexample :
    ¬ ∀ (env : Env) (username password : JSString) (w : World) (err : JSError)
        (detail : JSString),
        env.net.postToken username password = Except.error err →
        err.response.bind ErrorResponse.detail = some detail →
        (login env username password w).1 = Except.ok (LoginResult.failure detail) := by
  intro h
  have h2 := h
    (gatewayEnv (Except.error (detailError 401 [])) (Except.ok ()) (Except.ok (validation false)))
    (str "ann") (str "secret") (sampleWorld [] [] []) (detailError 401 []) [] rfl rfl
  have h3 : (login
      (gatewayEnv (Except.error (detailError 401 [])) (Except.ok ())
        (Except.ok (validation false)))
      (str "ann") (str "secret") (sampleWorld [] [] [])).1 =
      Except.ok (LoginResult.failure (str "Login failed. Please try again.")) := rfl
  rw [h3] at h2
  have h4 := LoginResult.failure.inj (Except.ok.inj h2)
  revert h4
  decide

/-- C12, amended. `login` reports through its result and never throws. When the token request
succeeds it returns `{ success: true }` and the session is authenticated with `user.username`
the submitted username. When the request fails it returns `{ success: false, message }`, where
`message` is the `detail` of the error response when that is present and not the empty string,
and the text "Login failed. Please try again." otherwise, and the session is as it was. -/
theorem login_result (env : Env) (username password : JSString) (w : World) :
    (env.net.postToken username password = Except.ok () →
      (login env username password w).1 = Except.ok LoginResult.success ∧
      session (login env username password w).2 = (true, some { username := some username })) ∧
    (∀ err, env.net.postToken username password = Except.error err →
      session (login env username password w).2 = session w ∧
      (∀ detail, err.response.bind ErrorResponse.detail = some detail → detail ≠ [] →
        (login env username password w).1 = Except.ok (LoginResult.failure detail)) ∧
      (err.response.bind ErrorResponse.detail = none ∨
          err.response.bind ErrorResponse.detail = some [] →
        (login env username password w).1 =
          Except.ok (LoginResult.failure (str "Login failed. Please try again.")))) := by
  constructor
  · intro h
    rw [login_ok env username password w h]
    exact ⟨rfl, rfl⟩
  · intro err h
    rw [login_failed env username password w err h]
    refine ⟨rfl, ?_, ?_⟩
    · intro detail hd hne
      have hm : loginMessage err = detail := by
        unfold loginMessage
        rw [hd]
        cases detail with
        | nil => exact absurd rfl hne
        | cons a l => rfl
      rw [hm]
    · intro hd
      have hm : loginMessage err = str "Login failed. Please try again." := by
        unfold loginMessage
        rcases hd with hd | hd <;> rw [hd] <;> rfl
      rw [hm]

theorem login_result_witness :
    (login
      (gatewayEnv (Except.error (detailError 401 (str "Incorrect username or password")))
        (Except.ok ()) (Except.ok (validation false)))
      (str "ann") (str "wrong") (sampleWorld [] [] [])).1 =
      Except.ok (LoginResult.failure (str "Incorrect username or password")) :=
  ((login_result
    (gatewayEnv (Except.error (detailError 401 (str "Incorrect username or password")))
      (Except.ok ()) (Except.ok (validation false)))
    (str "ann") (str "wrong") (sampleWorld [] [] [])).2
      (detailError 401 (str "Incorrect username or password")) rfl).2.1
    (str "Incorrect username or password") rfl (by decide)

theorem logout_ok (env : Env) (w : World) (h : env.net.postLogout = Except.ok ()) :
    logout env w =
      (Except.ok true,
        { w with
          auth := { w.auth with isAuthenticated := false, user := none }
          trace := w.trace ++ [Event.postLogout] }) := by
  simp [logout, axiosPostLogout, bind, JS.andThen, emit, modifyWorld, await, tryCatch,
    tryCatchThe, MonadExcept.tryCatch, JS.catchErr, h, pure, JS.ret, setIsAuthenticated, setUser]

theorem logout_failed (env : Env) (w : World) (err : JSError)
    (h : env.net.postLogout = Except.error err) :
    logout env w =
      (Except.ok false,
        { w with trace := w.trace ++ [Event.postLogout, Event.consoleError] }) := by
  simp [logout, axiosPostLogout, bind, JS.andThen, emit, modifyWorld, await, tryCatch,
    tryCatchThe, MonadExcept.tryCatch, JS.catchErr, h, pure, JS.ret, consoleError]

/-- C15. From any session, when the logout request succeeds `logout` returns `true` and leaves
the session not authenticated with no user; when the request fails `logout` returns `false`,
so it does not throw, and leaves the session exactly as it was. -/
theorem logout_result (env : Env) (w : World) :
    (env.net.postLogout = Except.ok () →
      (logout env w).1 = Except.ok true ∧ session (logout env w).2 = (false, none)) ∧
    (∀ err, env.net.postLogout = Except.error err →
      (logout env w).1 = Except.ok false ∧ session (logout env w).2 = session w) := by
  constructor
  · intro h
    rw [logout_ok env w h]
    exact ⟨rfl, rfl⟩
  · intro err h
    rw [logout_failed env w err h]
    exact ⟨rfl, rfl⟩

theorem logout_result_witness :
    (logout
      (gatewayEnv (Except.ok ()) (Except.error (httpError 503)) (Except.ok (validation true)))
      (sampleWorld [] [] [])).1 = Except.ok false ∧
    session (logout
      (gatewayEnv (Except.ok ()) (Except.error (httpError 503)) (Except.ok (validation true)))
      (sampleWorld [] [] [])).2 = (true, some { username := some (str "ann") }) :=
  (logout_result
    (gatewayEnv (Except.ok ()) (Except.error (httpError 503)) (Except.ok (validation true)))
    (sampleWorld [] [] [])).2 (httpError 503) rfl

/-- C13, as the claim states it, fails: `login` called with an empty password sends the token
request all the same, and returns what the service answers. -/
theorem login_empty_password_counterexample :
    ¬ ∀ (env : Env) (username password : JSString) (w : World),
        username = [] ∨ password = [] →
        tokenRequests (login env username password w).2.trace = tokenRequests w.trace ∧
        session (login env username password w).2 = session w := by
  intro h
  have h2 := h
    (gatewayEnv (Except.ok ()) (Except.ok ()) (Except.ok (validation false)))
    (str "bob") [] (sampleWorld [] [] []) (Or.inr rfl)
  revert h2
  decide

theorem login_token_request (env : Env) (username password : JSString) (w : World) :
    tokenRequests (login env username password w).2.trace =
      tokenRequests w.trace ++ [(username, password)] := by
  rcases h : env.net.postToken username password with err | u
  · rw [login_failed env username password w err h]
    simp [tokenRequests, List.filterMap_append]
  · rw [login_ok env username password w h]
    simp [tokenRequests, List.filterMap_append]

theorem handleSubmit_guard (env : Env) (c : LoginState) (w : World)
    (h : c.username = [] ∨ c.password = []) :
    Login.handleSubmit env c w =
      (Except.ok (),
        { w with
          loginPage := { w.loginPage with
            error := Login.missingCredentialsMessage, isLoading := false }
          trace := w.trace ++ [Event.preventDefault] }) := by
  have hg : (c.username.isEmpty || c.password.isEmpty) = true := by
    rcases h with h | h <;> simp [h]
  simp only [Login.handleSubmit, hg]
  rfl

/-- C13, amended. The check for missing credentials is in `handleSubmit` of the `Login` page:
when the username or the password is empty, `handleSubmit` returns normally with the message
"Please enter both username and password" and the loading flag false, neither `login` is
called nor a request sent to the token endpoint, and the session is as it was. `login` itself
has no such check: it sends the token request with whatever credentials it is given. -/
theorem handleSubmit_missing_credentials (env : Env) (w : World)
    (h : w.loginPage.username = [] ∨ w.loginPage.password = []) :
    (Login.handleSubmit env w.loginPage w).1 = Except.ok () ∧
    (Login.handleSubmit env w.loginPage w).2.loginPage.error =
      str "Please enter both username and password" ∧
    (Login.handleSubmit env w.loginPage w).2.loginPage.isLoading = false ∧
    loginCalls (Login.handleSubmit env w.loginPage w).2.trace = loginCalls w.trace ∧
    tokenRequests (Login.handleSubmit env w.loginPage w).2.trace = tokenRequests w.trace ∧
    (Login.handleSubmit env w.loginPage w).2.auth = w.auth ∧
    ∀ username password,
      tokenRequests (login env username password w).2.trace =
        tokenRequests w.trace ++ [(username, password)] := by
  rw [handleSubmit_guard env w.loginPage w h]
  refine ⟨rfl, rfl, rfl, ?_, ?_, rfl, fun u p => login_token_request env u p w⟩
  · simp [loginCalls, List.filterMap_append]
  · simp [tokenRequests, List.filterMap_append]

theorem handleSubmit_missing_credentials_witness :
    (Login.handleSubmit
      (gatewayEnv (Except.ok ()) (Except.ok ()) (Except.ok (validation false)))
      (sampleLoginWorld (str "bob") []).loginPage
      (sampleLoginWorld (str "bob") [])).2.loginPage.error =
      str "Please enter both username and password" ∧
    tokenRequests (Login.handleSubmit
      (gatewayEnv (Except.ok ()) (Except.ok ()) (Except.ok (validation false)))
      (sampleLoginWorld (str "bob") []).loginPage
      (sampleLoginWorld (str "bob") [])).2.trace = [] :=
  have h := handleSubmit_missing_credentials
    (gatewayEnv (Except.ok ()) (Except.ok ()) (Except.ok (validation false)))
    (sampleLoginWorld (str "bob") []) (Or.inr rfl)
  ⟨h.2.1, h.2.2.2.2.1⟩

theorem checkAuth_authenticated (env : Env) (w : World) (v : ValidateResponse)
    (h : env.net.getValidateSession = Except.ok v) (hb : v.is_authenticated = true) :
    checkAuth env w =
      (Except.ok (),
        { w with
          auth := { isAuthenticated := true, user := some { username := v.username },
                    loading := false }
          trace := w.trace ++ [Event.getValidateSession, Event.setLoading false] }) := by
  simp [checkAuth, axiosGetValidateSession, bind, JS.andThen, emit, modifyWorld, await,
    tryCatch, tryCatchThe, MonadExcept.tryCatch, JS.catchErr, tryFinally,
    MonadFinally.tryFinally', JS.andFinally, Functor.map, h, hb, pure, JS.ret,
    setIsAuthenticated, setUser, setLoading]

theorem checkAuth_not_authenticated (env : Env) (w : World) (v : ValidateResponse)
    (h : env.net.getValidateSession = Except.ok v) (hb : v.is_authenticated = false) :
    checkAuth env w =
      (Except.ok (),
        { w with
          auth := { w.auth with loading := false }
          trace := w.trace ++ [Event.getValidateSession, Event.setLoading false] }) := by
  simp [checkAuth, axiosGetValidateSession, bind, JS.andThen, emit, modifyWorld, await,
    tryCatch, tryCatchThe, MonadExcept.tryCatch, JS.catchErr, tryFinally,
    MonadFinally.tryFinally', JS.andFinally, Functor.map, h, hb, pure, JS.ret,
    setIsAuthenticated, setUser, setLoading]

theorem checkAuth_failed (env : Env) (w : World) (err : JSError)
    (h : env.net.getValidateSession = Except.error err) :
    checkAuth env w =
      (Except.ok (),
        { w with
          auth := { isAuthenticated := false, user := none, loading := false }
          trace := w.trace ++
            [Event.getValidateSession, Event.consoleError, Event.setLoading false] }) := by
  simp [checkAuth, axiosGetValidateSession, bind, JS.andThen, emit, modifyWorld, await,
    tryCatch, tryCatchThe, MonadExcept.tryCatch, JS.catchErr, tryFinally,
    MonadFinally.tryFinally', JS.andFinally, Functor.map, h, pure, JS.ret,
    setIsAuthenticated, setUser, setLoading, consoleError]

/-- C14, as the claim states it, fails: started from an authenticated session, `checkAuth`
leaves the session authenticated when the validation response reports not authenticated. -/
theorem checkAuth_any_session_counterexample :
    ¬ ∀ (env : Env) (w : World) (v : ValidateResponse),
        env.net.getValidateSession = Except.ok v → v.is_authenticated = false →
        session (checkAuth env w).2 = (false, none) := by
  intro h
  have h2 := h
    (gatewayEnv (Except.ok ()) (Except.ok ()) (Except.ok (validation false)))
    (sampleWorld [] [] []) (validation false) rfl rfl
  revert h2
  decide

/-- C14, amended. `checkAuth` returns normally in every outcome of the validate-session
request and calls `setLoading` exactly once, with `false`. When the response reports
`is_authenticated` true the session becomes authenticated with `user.username` the returned
username; when the request fails the session becomes not authenticated with no user; when the
response reports not authenticated the session is left as it was, so it is not authenticated
with no user when `checkAuth` starts from that initial session. -/
theorem checkAuth_outcome (env : Env) (w : World) :
    (checkAuth env w).1 = Except.ok () ∧
    setLoadingCalls (checkAuth env w).2.trace = setLoadingCalls w.trace ++ [false] ∧
    (checkAuth env w).2.auth.loading = false ∧
    (∀ v, env.net.getValidateSession = Except.ok v → v.is_authenticated = true →
      session (checkAuth env w).2 = (true, some { username := v.username })) ∧
    (∀ err, env.net.getValidateSession = Except.error err →
      session (checkAuth env w).2 = (false, none)) ∧
    (∀ v, env.net.getValidateSession = Except.ok v → v.is_authenticated = false →
      session (checkAuth env w).2 = session w ∧
      (session w = (false, none) → session (checkAuth env w).2 = (false, none))) := by
  rcases hv : env.net.getValidateSession with err | v
  · rw [checkAuth_failed env w err hv]
    refine ⟨rfl, ?_, rfl, ?_, ?_, ?_⟩
    · simp [setLoadingCalls, List.filterMap_append]
    · intro v h
      cases h
    · intro e2 _
      rfl
    · intro v h
      cases h
  · cases hb : v.is_authenticated
    · rw [checkAuth_not_authenticated env w v hv hb]
      refine ⟨rfl, ?_, rfl, ?_, ?_, ?_⟩
      · simp [setLoadingCalls, List.filterMap_append]
      · intro v2 h h2
        cases h
        rw [hb] at h2
        cases h2
      · intro e2 h
        cases h
      · intro v2 _ _
        exact ⟨rfl, fun h0 => h0⟩
    · rw [checkAuth_authenticated env w v hv hb]
      refine ⟨rfl, ?_, rfl, ?_, ?_, ?_⟩
      · simp [setLoadingCalls, List.filterMap_append]
      · intro v2 h _
        cases h
        rfl
      · intro e2 h
        cases h
      · intro v2 h h2
        cases h
        rw [hb] at h2
        cases h2

theorem checkAuth_outcome_witness :
    session (checkAuth (gatewayEnv (Except.ok ()) (Except.ok ()) (Except.ok (validation true)))
      (sampleLoginWorld [] [])).2 = (true, some { username := some (str "ann") }) :=
  (checkAuth_outcome (gatewayEnv (Except.ok ()) (Except.ok ()) (Except.ok (validation true)))
    (sampleLoginWorld [] [])).2.2.2.1 (validation true) rfl rfl

/-! ## The startup load of the history (C17) -/

theorem updatedSearches_nodup (env : Env) (l : List RecentSearch) (word : JSString)
    (b : Bool) (m : Option JSString) (h : (historyWords l).Nodup) :
    (historyWords (updatedSearches env l word b m)).Nodup := by
  have hsub : (historyWords (l.filter fun s => s.word != word)).Sublist (historyWords l) :=
    List.Sublist.map _ (List.filter_sublist _)
  have htake : ((historyWords (l.filter fun s => s.word != word)).take 4).Sublist
      (historyWords (l.filter fun s => s.word != word)) :=
    List.take_sublist _ _
  rw [updatedSearches_words]
  exact List.nodup_cons.mpr
    ⟨fun hmem => historyWords_filter_not_mem _ _ (htake.subset hmem),
      (h.sublist hsub).sublist htake⟩

theorem loadRecentSearches_parsed (env : Env) (w : World) (text : JSString)
    (l : List RecentSearch)
    (hget : getItem w.localStorage recentSearchesKey = some text) (hne : text ≠ [])
    (hparse : env.parse text = some l) :
    loadRecentSearches env w =
      (Except.ok (), { w with dict := { w.dict with recentSearches := l } }) := by
  have hemp : text.isEmpty = false := by
    cases text with
    | nil => exact absurd rfl hne
    | cons a r => rfl
  simp [loadRecentSearches, localStorageGetItem, jsonParse, hget, hemp, hparse, bind,
    JS.andThen, pure, JS.ret, tryCatch, tryCatchThe, MonadExcept.tryCatch, JS.catchErr,
    setRecentSearches, modifyWorld]

theorem loadRecentSearches_unparsed (env : Env) (w : World) (text : JSString)
    (hget : getItem w.localStorage recentSearchesKey = some text) (hne : text ≠ [])
    (hparse : env.parse text = none) :
    loadRecentSearches env w =
      (Except.ok (), { w with trace := w.trace ++ [Event.consoleError] }) := by
  have hemp : text.isEmpty = false := by
    cases text with
    | nil => exact absurd rfl hne
    | cons a r => rfl
  simp [loadRecentSearches, localStorageGetItem, jsonParse, hget, hemp, hparse, bind,
    JS.andThen, pure, JS.ret, tryCatch, tryCatchThe, MonadExcept.tryCatch, JS.catchErr,
    throw, throwThe, MonadExcept.throw, JS.throwErr, consoleError, emit, modifyWorld]

theorem loadRecentSearches_absent (env : Env) (w : World)
    (hget : getItem w.localStorage recentSearchesKey = none ∨
      getItem w.localStorage recentSearchesKey = some []) :
    loadRecentSearches env w = (Except.ok (), w) := by
  rcases hget with hget | hget <;>
    simp [loadRecentSearches, localStorageGetItem, hget, bind, JS.andThen, pure, JS.ret]

/-- C17, as the claim states it, fails: a stored value that parses to six entries, two of
them for the same word, is loaded as it is, so the history after the startup load has six
entries and a repeated word. -/
theorem loadRecentSearches_counterexample :
    ¬ ∀ (env : Env) (w : World),
        (loadRecentSearches env w).2.dict.recentSearches.length ≤ 5 ∧
        (historyWords (loadRecentSearches env w).2.dict.recentSearches).Nodup := by
  intro h
  have h2 := h
    (gatewayEnv (Except.ok ()) (Except.ok ()) (Except.ok (validation true)))
    (sampleStoredWorld (str "[a,a,b,c,d,e]"))
  revert h2
  decide

/-- C17, amended. The startup load never raises and stores what the stored value parses to,
as it is: the history after the load is the parsed sequence, so it has at most five entries
and no repeated word when the parsed sequence has. A stored value that fails to parse leaves
the history as it was, so empty when it was empty. Every later exact-match submit leaves a
history of at most five entries, without a repeated word when the prior history had none. -/
theorem loadRecentSearches_history (env : Env) (w : World) :
    (loadRecentSearches env w).1 = Except.ok () ∧
    (∀ text l, getItem w.localStorage (str "recentSearches") = some text → text ≠ [] →
      env.parse text = some l →
      (loadRecentSearches env w).2.dict.recentSearches = l ∧
      (l.length ≤ 5 → (historyWords l).Nodup →
        (loadRecentSearches env w).2.dict.recentSearches.length ≤ 5 ∧
        (historyWords (loadRecentSearches env w).2.dict.recentSearches).Nodup)) ∧
    (∀ text, getItem w.localStorage (str "recentSearches") = some text →
      env.parse text = none →
      (loadRecentSearches env w).2.dict.recentSearches = w.dict.recentSearches ∧
      (w.dict.recentSearches = [] → (loadRecentSearches env w).2.dict.recentSearches = [])) ∧
    (∀ (w2 : World) (e : Bool) (o : Option JSString) (data : SearchResponse),
      termToSearch w2.dict o ≠ [] →
      (searchWord env (termToSearch w2.dict o) w2).1 = Except.ok data →
      data.exact_match = true →
      (handleSearch env w2.dict e o w2).2.dict.recentSearches.length ≤ 5 ∧
      ((historyWords w2.dict.recentSearches).Nodup →
        (historyWords (handleSearch env w2.dict e o w2).2.dict.recentSearches).Nodup)) := by
  have hkey : str "recentSearches" = recentSearchesKey := rfl
  rw [hkey]
  refine ⟨?_, ?_, ?_, ?_⟩
  · rcases hget : getItem w.localStorage recentSearchesKey with _ | text
    · rw [loadRecentSearches_absent env w (Or.inl hget)]
    · by_cases hne : text = []
      · rw [loadRecentSearches_absent env w (Or.inr (hne ▸ hget))]
      · rcases hparse : env.parse text with _ | l
        · rw [loadRecentSearches_unparsed env w text hget hne hparse]
        · rw [loadRecentSearches_parsed env w text l hget hne hparse]
  · intro text l hget hne hparse
    rw [loadRecentSearches_parsed env w text l hget hne hparse]
    exact ⟨rfl, fun h5 hnd => ⟨h5, hnd⟩⟩
  · intro text hget hparse
    have hsame : (loadRecentSearches env w).2.dict.recentSearches = w.dict.recentSearches := by
      by_cases hne : text = []
      · rw [loadRecentSearches_absent env w (Or.inr (hne ▸ hget))]
      · rw [loadRecentSearches_unparsed env w text hget hne hparse]
    exact ⟨hsame, fun h0 => hsame.trans h0⟩
  · intro w2 e o data hne hok hx
    rw [searchWord_fst] at hok
    rw [(handleSearch_exact env w2.dict e o w2 data hne hok hx).2.1]
    exact ⟨List.length_take_le _ _, fun hnd => updatedSearches_nodup env _ _ _ _ hnd⟩

theorem loadRecentSearches_history_witness :
    (loadRecentSearches (gatewayEnv (Except.ok ()) (Except.ok ()) (Except.ok (validation true)))
      (sampleStoredWorld (str "[cat,dog]"))).2.dict.recentSearches =
      [sampleEntry (str "cat"), sampleEntry (str "dog")] :=
  ((loadRecentSearches_history
    (gatewayEnv (Except.ok ()) (Except.ok ()) (Except.ok (validation true)))
    (sampleStoredWorld (str "[cat,dog]"))).2.1 (str "[cat,dog]")
    [sampleEntry (str "cat"), sampleEntry (str "dog")] (by decide) (by decide) (by decide)).1

/-! ## The debounce (C16) -/

theorem searchWord_timers (env : Env) (word : JSString) (w : World) :
    (searchWord env word w).2.timers = w.timers ∧
    fetchCalls (searchWord env word w).2.trace = fetchCalls w.trace := by
  rcases h : env.net.postSearch word with e | r
  · by_cases hs : e.status? = some 401
    · rcases hv : env.net.getValidateSession with e2 | v
      · rw [searchWord_401_failed env word w e e2 h hs hv]
        simp [fetchCalls, List.filterMap_append]
      · cases hb : v.is_authenticated
        · rw [searchWord_401_invalid env word w e v h hs hv hb]
          simp [fetchCalls, List.filterMap_append]
        · rw [searchWord_401_valid env word w e v h hs hv hb]
          simp [fetchCalls, List.filterMap_append]
    · rw [searchWord_other env word w e h hs]
      simp [fetchCalls, List.filterMap_append]
  · rw [searchWord_ok env word w r h]
    simp [fetchCalls, List.filterMap_append]

/-- Frame of `fetchSuggestions`: the timers, the handle held and the input are untouched, and
it is not a timer callback itself. -/
theorem fetchSuggestions_frame (env : Env) (c : DictState) (term : JSString) (w : World) :
    (fetchSuggestions env c term w).2.timers = w.timers ∧
    (fetchSuggestions env c term w).2.dict.typingTimeout = w.dict.typingTimeout ∧
    (fetchSuggestions env c term w).2.dict.searchTerm = w.dict.searchTerm ∧
    fetchCalls (fetchSuggestions env c term w).2.trace = fetchCalls w.trace := by
  by_cases hlen : term.length < 2
  · rw [fetchSuggestions_short env c term w hlen]
    exact ⟨rfl, rfl, rfl, rfl⟩
  · have hlen2 : 2 ≤ term.length := Nat.le_of_not_lt hlen
    by_cases hit : filterWordsByPrefix env c.cachedWords term = []
    · rw [fetchSuggestions_miss env c term w hlen2 hit]
      have ht := searchWord_timers env term w
      have hd := (searchWord_frame env term w).1
      rcases hsw : searchWord env term w with ⟨err | data, w2⟩ <;> rw [hsw] at ht hd <;>
        simp only at ht hd
      · refine ⟨ht.1, ?_, ?_, ?_⟩
        · simp only [hd]
        · simp only [hd]
        · simpa [fetchCalls, List.filterMap_append] using ht.2
      · refine ⟨ht.1, ?_, ?_, ht.2⟩
        · simp only [hd]
        · simp only [hd]
    · rw [fetchSuggestions_hit env c term w hlen2 hit]
      exact ⟨rfl, rfl, rfl, rfl⟩

theorem timeoutCallback_run (env : Env) (tm : Timer) (w : World) :
    (timeoutCallback env tm w).2 =
      (fetchSuggestions env tm.closure tm.term
        { w with trace := w.trace ++ [Event.fetchSuggestions tm.term] }).2 := rfl

/-- The expiry of a timer removes it from the pending list and invokes `fetchSuggestions` once,
with its term. -/
theorem fireTimer_frame (env : Env) (tm : Timer) (w : World) :
    (fireTimer env tm w).timers.pending = (w.timers.pending.filter fun x => x.id != tm.id) ∧
    (fireTimer env tm w).timers.lastId = w.timers.lastId ∧
    (fireTimer env tm w).dict.typingTimeout = w.dict.typingTimeout ∧
    (fireTimer env tm w).dict.searchTerm = w.dict.searchTerm ∧
    fetchCalls (fireTimer env tm w).trace = fetchCalls w.trace ++ [tm.term] := by
  unfold fireTimer
  rw [timeoutCallback_run]
  obtain ⟨h1, h2, h3, h4⟩ := fetchSuggestions_frame env tm.closure tm.term
    { w with
      timers := { w.timers with pending := w.timers.pending.filter fun x => x.id != tm.id }
      trace := w.trace ++ [Event.fetchSuggestions tm.term] }
  refine ⟨?_, ?_, h2, h3, ?_⟩
  · rw [h1]
  · rw [h1]
  · rw [h4]
    simp [fetchCalls, List.filterMap_append]

theorem fireTimer_inv (env : Env) (tm : Timer) (w : World) (h : debounceInv w) :
    debounceInv (fireTimer env tm w) := by
  obtain ⟨hp, _, ht, _, _⟩ := fireTimer_frame env tm w
  intro x hx
  rw [hp] at hx
  rw [ht]
  exact h x (List.mem_filter.mp hx).1

theorem foldl_fireTimer_inv (env : Env) (l : List Timer) (w : World) (h : debounceInv w) :
    debounceInv (l.foldl (fun acc tm => fireTimer env tm acc) w) := by
  induction l generalizing w with
  | nil => exact h
  | cons tm rest ih => exact ih (fireTimer env tm w) (fireTimer_inv env tm w h)

theorem advanceTo_inv (env : Env) (t : Nat) (w : World) (h : debounceInv w) :
    debounceInv (advanceTo env t w) :=
  foldl_fireTimer_inv env _ w h

/-- With no timer due by `t`, the passing of time to `t` only moves the clock. -/
theorem advanceTo_quiet (env : Env) (t : Nat) (w : World)
    (h : ∀ tm ∈ w.timers.pending, t < tm.due) :
    advanceTo env t w = { w with timers := { w.timers with clock := t } } := by
  have hnil : (w.timers.pending.filter fun tm => decide (tm.due ≤ t)) = [] := by
    apply List.filter_eq_nil_iff.mpr
    intro tm htm
    have := h tm htm
    simp only [decide_eq_true_eq]
    omega
  unfold advanceTo
  rw [hnil]
  rfl

theorem handleInputChange_run (c : DictState) (value : JSString) (w : World) :
    handleInputChange c value w =
      (Except.ok (),
        { w with
          dict := { w.dict with searchTerm := value, typingTimeout := w.timers.lastId + 1 }
          timers := { w.timers with
            pending :=
              (if c.typingTimeout != 0 then
                w.timers.pending.filter fun tm => tm.id != c.typingTimeout
               else w.timers.pending) ++
                [{ id := w.timers.lastId + 1, due := w.timers.clock + 200, term := value,
                   closure := c }]
            lastId := w.timers.lastId + 1 } }) := by
  cases hc : (c.typingTimeout != 0) <;>
    simp [handleInputChange, debouncedFetchSuggestions, hc, bind, JS.andThen, pure, JS.ret,
      setSearchTerm, setTypingTimeout, clearTimeout, setTimeout, modifyWorld]

/-- A keystroke in a world where every pending timer carries the handle held in
`typingTimeout` cancels them all and leaves exactly the timer it arms. -/
theorem keystroke_run (env : Env) (t : Nat) (value : JSString) (w : World)
    (h : debounceInv w) :
    (keystroke env t value w).timers.pending =
      [{ id := (advanceTo env t w).timers.lastId + 1, due := t + 200, term := value,
         closure := (advanceTo env t w).dict }] ∧
    (keystroke env t value w).dict.typingTimeout = (advanceTo env t w).timers.lastId + 1 ∧
    (keystroke env t value w).dict.searchTerm = value ∧
    (keystroke env t value w).trace = (advanceTo env t w).trace := by
  have h1 := advanceTo_inv env t w h
  have hclock : (advanceTo env t w).timers.clock = t := rfl
  unfold keystroke
  rw [handleInputChange_run]
  refine ⟨?_, rfl, rfl, rfl⟩
  have hcleared : (if (advanceTo env t w).dict.typingTimeout != 0 then
      (advanceTo env t w).timers.pending.filter fun tm =>
        tm.id != (advanceTo env t w).dict.typingTimeout
      else (advanceTo env t w).timers.pending) = [] := by
    by_cases h0 : (advanceTo env t w).dict.typingTimeout = 0
    · simp only [h0, bne_self_eq_false, Bool.false_eq_true, if_false]
      cases hp : (advanceTo env t w).timers.pending with
      | nil => rfl
      | cons tm rest =>
        exact absurd h0 (h1 tm (by rw [hp]; exact List.mem_cons_self _ _)).2
    · have hne : ((advanceTo env t w).dict.typingTimeout != 0) = true := by
        simpa using h0
      rw [if_pos hne]
      apply List.filter_eq_nil_iff.mpr
      intro tm htm
      simp [(h1 tm htm).1]
  simp only [hcleared, hclock, List.nil_append]

theorem keystroke_inv (env : Env) (t : Nat) (value : JSString) (w : World)
    (h : debounceInv w) : debounceInv (keystroke env t value w) := by
  obtain ⟨hp, ht, _, _⟩ := keystroke_run env t value w h
  intro tm htm
  rw [hp] at htm
  rw [ht]
  have : tm = _ := List.mem_singleton.mp htm
  subst this
  exact ⟨rfl, Nat.succ_ne_zero _⟩

theorem debounceInv_of_idle (w : World) (h : w.timers.pending = []) : debounceInv w := by
  intro tm htm
  rw [h] at htm
  exact absurd htm (List.not_mem_nil _)

/-- After any non-empty sequence of keystrokes exactly one timer is pending and the input
holds the value of the last keystroke. -/
theorem typeKeys_pending (env : Env) (first : Nat × JSString) (rest : List (Nat × JSString))
    (w : World) (h : debounceInv w) :
    debounceInv (typeKeys env (first :: rest) w) ∧
    (typeKeys env (first :: rest) w).timers.pending.length = 1 ∧
    (typeKeys env (first :: rest) w).dict.searchTerm = (lastKey first rest).2 := by
  induction rest generalizing first w with
  | nil =>
    obtain ⟨hp, _, hs, _⟩ := keystroke_run env first.1 first.2 w h
    refine ⟨keystroke_inv env first.1 first.2 w h, ?_, hs⟩
    show (keystroke env first.1 first.2 w).timers.pending.length = 1
    rw [hp]
    rfl
  | cons key more ih =>
    exact ih key (keystroke env first.1 first.2 w) (keystroke_inv env first.1 first.2 w h)

/-- A keystroke before any pending timer is due: nothing expires, and the world changes only
in the input, the handle held, the clock and the pending list, which holds the new timer. -/
theorem keystroke_quiet (env : Env) (t : Nat) (value : JSString) (w : World)
    (h : debounceInv w) (hquiet : ∀ tm ∈ w.timers.pending, t < tm.due) :
    keystroke env t value w =
      { w with
        dict := { w.dict with searchTerm := value, typingTimeout := w.timers.lastId + 1 }
        timers :=
          { clock := t
            pending := [{ id := w.timers.lastId + 1, due := t + 200, term := value,
                          closure := w.dict }]
            lastId := w.timers.lastId + 1 } } := by
  have hcleared : (if w.dict.typingTimeout != 0 then
      w.timers.pending.filter fun tm => tm.id != w.dict.typingTimeout
      else w.timers.pending) = [] := by
    by_cases h0 : w.dict.typingTimeout = 0
    · simp only [h0, bne_self_eq_false, Bool.false_eq_true, if_false]
      cases hp : w.timers.pending with
      | nil => rfl
      | cons tm rest =>
        exact absurd h0 (h tm (by rw [hp]; exact List.mem_cons_self _ _)).2
    · have hne : (w.dict.typingTimeout != 0) = true := by
        simpa using h0
      rw [if_pos hne]
      apply List.filter_eq_nil_iff.mpr
      intro tm htm
      simp [(h tm htm).1]
  unfold keystroke
  rw [advanceTo_quiet env t w hquiet, handleInputChange_run]
  dsimp only
  rw [hcleared]
  rfl

/-- A keystroke before any pending timer is due arms its timer and invokes nothing. -/
theorem keystroke_armed (env : Env) (t : Nat) (value : JSString) (w : World)
    (h : debounceInv w) (hquiet : ∀ tm ∈ w.timers.pending, t < tm.due) :
    armed t value (keystroke env t value w) ∧
    (keystroke env t value w).trace = w.trace ∧
    (keystroke env t value w).dict.suggestions = w.dict.suggestions ∧
    (keystroke env t value w).dict.cachedWords = w.dict.cachedWords := by
  refine ⟨⟨keystroke_inv env t value w h, ?_⟩, ?_, ?_, ?_⟩ <;>
    rw [keystroke_quiet env t value w h hquiet]
  exact ⟨_, rfl, rfl, rfl, rfl⟩

theorem typeKeys_rapid (env : Env) (first : Nat × JSString) (rest : List (Nat × JSString))
    (w : World) (h : armed first.1 first.2 w) (hrapid : rapid first.1 rest) :
    armed (lastKey first rest).1 (lastKey first rest).2 (typeKeys env rest w) ∧
    (typeKeys env rest w).trace = w.trace ∧
    (typeKeys env rest w).dict.suggestions = w.dict.suggestions ∧
    (typeKeys env rest w).dict.cachedWords = w.dict.cachedWords := by
  induction rest generalizing first w with
  | nil => exact ⟨h, rfl, rfl, rfl⟩
  | cons key more ih =>
    obtain ⟨_, hlt, hmore⟩ := hrapid
    obtain ⟨hinv, tm, hp, hdue, _, _⟩ := h
    have hquiet : ∀ x ∈ w.timers.pending, key.1 < x.due := by
      intro x hx
      rw [hp] at hx
      rw [List.mem_singleton.mp hx, hdue]
      exact hlt
    obtain ⟨harm, h1, h2, h3⟩ := keystroke_armed env key.1 key.2 w hinv hquiet
    obtain ⟨k0, k1, k2, k3⟩ := ih key (keystroke env key.1 key.2 w) harm hmore
    exact ⟨k0, k1.trans h1, k2.trans h2, k3.trans h3⟩

/-- Once the 200 ms of the pending timer have passed it expires: the world is the one
`fetchSuggestions`, called with the term of the timer in the render of the timer, leaves from
the world without the timer, with the clock moved. -/
theorem advanceTo_fire (env : Env) (t2 : Nat) (tm : Timer) (w : World)
    (hp : w.timers.pending = [tm]) (hdue : tm.due ≤ t2) :
    advanceTo env t2 w =
      { (fetchSuggestions env tm.closure tm.term
          { w with
            timers := { w.timers with pending := [] }
            trace := w.trace ++ [Event.fetchSuggestions tm.term] }).2 with
        timers :=
          { (fetchSuggestions env tm.closure tm.term
              { w with
                timers := { w.timers with pending := [] }
                trace := w.trace ++ [Event.fetchSuggestions tm.term] }).2.timers with
            clock := t2 } } := by
  have hfil : (w.timers.pending.filter fun x => decide (x.due ≤ t2)) = [tm] := by
    rw [hp]
    simp [hdue]
  have hrest : (w.timers.pending.filter fun x => x.id != tm.id) = [] := by
    rw [hp]
    simp
  unfold advanceTo
  rw [hfil]
  simp only [List.foldl_cons, List.foldl_nil, fireTimer, timeoutCallback_run, hrest]

/-- Before the 200 ms of the pending timer have passed, the passing of time only moves the
clock. -/
theorem advanceTo_early (env : Env) (t2 : Nat) (tm : Timer) (w : World)
    (hp : w.timers.pending = [tm]) (hearly : t2 < tm.due) :
    advanceTo env t2 w = { w with timers := { w.timers with clock := t2 } } := by
  apply advanceTo_quiet
  intro x hx
  rw [hp] at hx
  rw [List.mem_singleton.mp hx]
  exact hearly

/-- C16. Debounce, last keystroke wins. From a world with no pending timer, after every
non-empty sequence of keystrokes exactly one debounce timer is pending and `searchTerm` is the
value of the last keystroke. When moreover each keystroke follows the previous one by less
than 200 ms: while the keys are typed nothing is invoked, the trace and the suggestions being
as they were; the pending timer is due 200 ms after the last keystroke and holds the term of
the last keystroke and a render with the cache as it is; before it is due the passing of time
only moves the clock; and once it is due the world is the one left by
`fetchSuggestions(term)` with the term of the last keystroke, run once from the world without
the timer, so that it has been invoked exactly once and no timer is left pending. -/
theorem debounce_last_keystroke_wins (env : Env) (w : World) (first : Nat × JSString)
    (rest : List (Nat × JSString)) (hidle : w.timers.pending = []) :
    ((typeKeys env (first :: rest) w).timers.pending.length = 1 ∧
      (typeKeys env (first :: rest) w).dict.searchTerm = (lastKey first rest).2) ∧
    (rapid first.1 rest →
      ((typeKeys env (first :: rest) w).trace = w.trace ∧
        (typeKeys env (first :: rest) w).dict.suggestions = w.dict.suggestions) ∧
      ∀ tm ∈ (typeKeys env (first :: rest) w).timers.pending,
        tm.term = (lastKey first rest).2 ∧
        tm.due = (lastKey first rest).1 + 200 ∧
        tm.closure.cachedWords = w.dict.cachedWords ∧
        (∀ t, t < (lastKey first rest).1 + 200 →
          advanceTo env t (typeKeys env (first :: rest) w) =
            { typeKeys env (first :: rest) w with
              timers := { (typeKeys env (first :: rest) w).timers with clock := t } }) ∧
        (∀ t, (lastKey first rest).1 + 200 ≤ t →
          advanceTo env t (typeKeys env (first :: rest) w) =
            { (fetchSuggestions env tm.closure (lastKey first rest).2
                { typeKeys env (first :: rest) w with
                  timers := { (typeKeys env (first :: rest) w).timers with pending := [] }
                  trace := (typeKeys env (first :: rest) w).trace ++
                    [Event.fetchSuggestions (lastKey first rest).2] }).2 with
              timers :=
                { (fetchSuggestions env tm.closure (lastKey first rest).2
                    { typeKeys env (first :: rest) w with
                      timers := { (typeKeys env (first :: rest) w).timers with pending := [] }
                      trace := (typeKeys env (first :: rest) w).trace ++
                        [Event.fetchSuggestions (lastKey first rest).2] }).2.timers with
                  clock := t } } ∧
          fetchCalls (advanceTo env t (typeKeys env (first :: rest) w)).trace =
            fetchCalls w.trace ++ [(lastKey first rest).2] ∧
          (advanceTo env t (typeKeys env (first :: rest) w)).timers.pending = [])) := by
  have hinv := debounceInv_of_idle w hidle
  refine ⟨(typeKeys_pending env first rest w hinv).2, ?_⟩
  intro hrapid
  have hquiet : ∀ tm ∈ w.timers.pending, first.1 < tm.due := by
    intro tm htm
    rw [hidle] at htm
    exact absurd htm (List.not_mem_nil _)
  obtain ⟨harm, h1, h2, h3⟩ := keystroke_armed env first.1 first.2 w hinv hquiet
  obtain ⟨hlast, k1, k2, k3⟩ :=
    typeKeys_rapid env first rest (keystroke env first.1 first.2 w) harm hrapid
  have htrace : (typeKeys env (first :: rest) w).trace = w.trace := k1.trans h1
  refine ⟨⟨htrace, k2.trans h2⟩, ?_⟩
  obtain ⟨_, tm0, hp, hdue, hterm, hdict⟩ := hlast
  have hp2 : (typeKeys env (first :: rest) w).timers.pending = [tm0] := hp
  intro tm htm
  rw [hp2] at htm
  have htm0 : tm = tm0 := List.mem_singleton.mp htm
  subst htm0
  have hcache : tm.closure.cachedWords = w.dict.cachedWords := by
    have hc : (typeKeys env (first :: rest) w).dict.cachedWords = tm.closure.cachedWords := by
      show (typeKeys env rest (keystroke env first.1 first.2 w)).dict.cachedWords = _
      rw [hdict]
    rw [← hc]
    exact k3.trans h3
  refine ⟨hterm, hdue, hcache, ?_, ?_⟩
  · intro t ht
    exact advanceTo_early env t tm _ hp2 (by rw [hdue]; exact ht)
  · intro t ht
    have hfire := advanceTo_fire env t tm _ hp2 (by rw [hdue]; exact ht)
    rw [hterm] at hfire
    refine ⟨hfire, ?_, ?_⟩
    · rw [hfire]
      show fetchCalls (fetchSuggestions env tm.closure (lastKey first rest).2 _).2.trace = _
      rw [(fetchSuggestions_frame env tm.closure (lastKey first rest).2 _).2.2.2, htrace]
      simp [fetchCalls, List.filterMap_append]
    · rw [hfire]
      show (fetchSuggestions env tm.closure (lastKey first rest).2 _).2.timers.pending = []
      rw [(fetchSuggestions_frame env tm.closure (lastKey first rest).2 _).1]

theorem debounce_last_keystroke_wins_witness :
    (typeKeys (sampleEnv (Except.error (httpError 500)) (Except.ok (validation true)))
      [(0, str "c"), (100, str "ca"), (250, str "cat")]
      (sampleWorld [] [str "cat", str "dog"] [])).timers.pending.length = 1 ∧
    (advanceTo (sampleEnv (Except.error (httpError 500)) (Except.ok (validation true))) 450
      (typeKeys (sampleEnv (Except.error (httpError 500)) (Except.ok (validation true)))
        [(0, str "c"), (100, str "ca"), (250, str "cat")]
        (sampleWorld [] [str "cat", str "dog"] []))).dict.suggestions = [str "cat"] ∧
    fetchCalls
      (advanceTo (sampleEnv (Except.error (httpError 500)) (Except.ok (validation true))) 450
        (typeKeys (sampleEnv (Except.error (httpError 500)) (Except.ok (validation true)))
          [(0, str "c"), (100, str "ca"), (250, str "cat")]
          (sampleWorld [] [str "cat", str "dog"] []))).trace = [str "cat"] :=
  have h := debounce_last_keystroke_wins
    (sampleEnv (Except.error (httpError 500)) (Except.ok (validation true)))
    (sampleWorld [] [str "cat", str "dog"] []) (0, str "c")
    [(100, str "ca"), (250, str "cat")] rfl
  have hfire := ((h.2 (by simp [rapid])).2
    { id := 3, due := 450, term := str "cat",
      closure := { (sampleWorld (str "ca") [str "cat", str "dog"] []).dict with
        typingTimeout := 2 } }
    (by decide)).2.2.2.2 450 (by decide)
  ⟨h.1.1, (congrArg (fun x => x.dict.suggestions) hfire.1).trans (by decide), hfire.2.1⟩

end FuzzyDict
